import Mathlib

/-!
# Verification of the OTE test-stage orchestration engine

Shallow embedding of the core of `tests/test_ote_training.py`:

* `Struct` models the arbitrarily nested result dictionaries (Python dicts
  with string keys, numeric leaves, and opaque entity handles modelled as
  string leaves).  Numeric values are modelled as rationals `ℚ`.
* `get_value_from_dict_by_dot_separated_address` models the function of the
  same name (lines 860-871).
* `Validator` logic: `getMinMaxValueFromExpectedMetrics` (lines 884-972),
  `compareMetric` (lines 974-1023) and `validate` (lines 1025-1082).
* `OTETestStage.run_once` (lines 1084-1185) is modelled as a state machine
  `runOnce` over an explicit `TestState`, with the fixed dependency DAG of
  `OTEIntegrationTestCase.__init__` (lines 1198-1240) as `oteGraph`.
* The pytest-level cache (`_clean_cache_if_parameters_changed`,
  `_update_test_case_in_cache`, lines 1412-1458) is modelled by
  `updateTestCaseInCache`.

Python exceptions are modelled by `Except`; the different `raise` sites get
distinct constructors of the error types so that `except (ValueError,
TypeError)` clauses can be modelled faithfully by `Err.isCatchable`.
-/

/-- A nested Python structure as used for stage results and expected-metric
storages: a dict with string keys, numeric leaves (Python floats, modelled as
`ℚ`) and opaque non-numeric entities (modelled as `.str`). -/
inductive Struct where
  | num (v : ℚ)
  | str (s : String)
  | dict (entries : List (String × Struct))

/-- Error taxonomy.  Each constructor corresponds to one `raise`/`assert`
site in the Python source; `isCatchable` below records whether the Python
exception class is caught by the `except (ValueError, TypeError)` clauses
of `Validator.validate`. -/
inductive Err where
  /-- `ValueError` raised in `get_value_from_dict_by_dot_separated_address`
  when an intermediate key is absent (line 867). -/
  | addressAbsent (key : String)
  /-- `AssertionError` from `assert isinstance(cur_struct, dict)` (line 865). -/
  | notAMapping
  /-- `TypeError`/`ValueError` from a failing `float(...)` cast. -/
  | notAFloat
  /-- line 908: neither `target_value` nor `base` present. -/
  | configNoTarget
  /-- line 912: both `target_value` and `base` present. -/
  | configBothTargets
  /-- line 916: none of the three tolerance keys present. -/
  | configNoToleranceKeys
  /-- line 923: `max_diff` together with a threshold key. -/
  | configBothShapes
  /-- line 947: both threshold values are `None`. -/
  | configAllThresholdsNone
  /-- line 941: negative `max_diff`. -/
  | configNegMaxDiff
  /-- line 954: negative `max_diff_if_greater_threshold`. -/
  | configNegGreaterThreshold
  /-- line 964: negative `max_diff_if_less_threshold`. -/
  | configNegLessThreshold
  /-- line 1061: wrapped `ValueError('Cannot get metric ...')`. -/
  | metricNotFound (addr : String)
  /-- line 1069: wrapped `ValueError('Error when parsing expected metrics ...')`. -/
  | expectedMetricsParse (addr : String)
  /-- line 936: the defensive `RuntimeError('ERROR: Wrong parsing of metric
  requirements ...')` (unreachable after the key checks). -/
  | wrongParsing
  /-- `AssertionError` from the asserts of `Validator._compare`. -/
  | compareAssert
  /-- line 1082: `pytest.fail` with the aggregated message. -/
  | validationFailed (msg : String)
  deriving DecidableEq, Repr

/-- Whether the Python exception modelled by the constructor is an instance of
`ValueError` or `TypeError` (the classes caught in `Validator.validate`). -/
def Err.isCatchable : Err → Bool
  | .addressAbsent _ => true
  | .notAMapping => false
  | .notAFloat => true
  | .configNoTarget | .configBothTargets | .configNoToleranceKeys
  | .configBothShapes | .configAllThresholdsNone
  | .configNegMaxDiff | .configNegGreaterThreshold | .configNegLessThreshold => true
  | .metricNotFound _ => true
  | .expectedMetricsParse _ => true
  | .wrongParsing => false
  | .compareAssert => false
  | .validationFailed _ => false

/-- The inner recursion `_get(cur_struct, addr)` of
`get_value_from_dict_by_dot_separated_address` (lines 861-868): an empty
address list returns the current structure; otherwise the current structure
must be a dict (`assert isinstance(cur_struct, dict)`) containing the first
key, and descent continues on the rest of the address. -/
def getByDotAddressList : List String → Struct → Except Err Struct
  | [], cur => .ok cur
  | k :: rest, cur =>
    match cur with
    | .dict entries =>
      match entries.lookup k with
      | none => .error (.addressAbsent k)
      | some v => getByDotAddressList rest v
    | _ => .error .notAMapping

/-- Python's `str.split(sep)` for a one-character separator, on the character
list of the string.  With an explicit separator Python's split never returns
an empty list: `''.split('.') == ['']`, `'a.b'.split('.') == ['a', 'b']`,
and consecutive separators produce empty fields. -/
def pySplit (sep : Char) : List Char → List String
  | [] => [""]
  | c :: rest =>
    match pySplit sep rest with
    | [] => [""]
    | cur :: parts =>
      if c = sep then "" :: cur :: parts
      else ⟨c :: cur.data⟩ :: parts

/-- `get_value_from_dict_by_dot_separated_address(struct, address)`
(lines 860-871): split the address on `'.'` (Python `address.split('.')`,
modelled by `pySplit`) and descend with `_get`. -/
def get_value_from_dict_by_dot_separated_address (struct : Struct) (address : String) :
    Except Err Struct :=
  getByDotAddressList (pySplit '.' address.data) struct

example :
    get_value_from_dict_by_dot_separated_address
      (.dict [("a", .dict [("b", .num 5)])]) "a.b" = .ok (.num 5) := rfl

example :
    get_value_from_dict_by_dot_separated_address
      (.dict [("a", .dict [("b", .num 5)])]) "a.c" = .error (.addressAbsent "c") := rfl

example :
    get_value_from_dict_by_dot_separated_address
      (.dict [("a", .dict [("b", .num 5)])]) "" = .error (.addressAbsent "") := rfl

/-- String rendering of a rational, standing in for Python's interpolation of
floats into f-strings (the exact decimal rendering is immaterial to the
properties proved; only which substrings appear matters). -/
def ratStr (q : ℚ) : String :=
  if q.den = 1 then toString q.num else toString q.num ++ "/" ++ toString q.den

/-- A metric requirement structure, i.e. one value of the expected-metrics
mapping.  Fields are `none` when the corresponding key is absent.  The two
threshold fields are doubly optional because the source distinguishes key
presence (`'max_diff_if_less_threshold' in keys`, line 916) from a present
key holding `None` (`cur_metric_requirements.get(...)`, lines 945-947); the
schema types `target_value` and `max_diff` as numbers, so a single `Option`
suffices for them. -/
structure MetricRequirement where
  target_value : Option ℚ
  base : Option String
  max_diff : Option ℚ
  max_diff_if_less_threshold : Option (Option ℚ)
  max_diff_if_greater_threshold : Option (Option ℚ)

/-- `float(x)` applied to a value extracted from a result structure: numbers
cast to themselves, dicts raise `TypeError`, non-numeric entities raise
`ValueError` (numeric strings do not occur in the modelled storages). -/
def structFloat : Struct → Except Err ℚ
  | .num v => .ok v
  | .str _ => .error .notAFloat
  | .dict _ => .error .notAFloat

/-- Lines 929-936 of `Validator._get_min_max_value_from_expected_metrics`:
the target value comes from `target_value` if that key is present, otherwise
from resolving the `base` address in the test-results storage and casting to
float. -/
def resolveTargetValue (req : MetricRequirement) (test_results_storage : Struct) :
    Except Err ℚ :=
  match req.target_value with
  | some t => .ok t
  | none =>
    match req.base with
    | some base_metric_address => do
      let v ← get_value_from_dict_by_dot_separated_address test_results_storage
        base_metric_address
      structFloat v
    | none => .error .wrongParsing

/-- Lines 938-943: the symmetric tolerance shape: `max_diff` must be
non-negative and yields the inclusive bounds
`[target_value - max_diff, target_value + max_diff]`. -/
def boundsFromMaxDiff (target_value max_diff : ℚ) :
    Except Err (ℚ × Option ℚ × Option ℚ) :=
  if ¬ max_diff ≥ 0 then .error .configNegMaxDiff
  else .ok (target_value, some (target_value - max_diff), some (target_value + max_diff))

/-- Lines 952-960: `max_value` from `max_diff_if_greater_threshold` (already
`.get`-joined): absent gives `None`, present must be non-negative. -/
def maxValueFromGreater (target_value : ℚ) : Option ℚ → Except Err (Option ℚ)
  | some g =>
    if ¬ g ≥ 0 then .error .configNegGreaterThreshold
    else pure (some (target_value + g))
  | none => pure none

/-- Lines 962-970: `min_value` from `max_diff_if_less_threshold`. -/
def minValueFromLess (target_value : ℚ) : Option ℚ → Except Err (Option ℚ)
  | some l =>
    if ¬ l ≥ 0 then .error .configNegLessThreshold
    else pure (some (target_value - l))
  | none => pure none

/-- Lines 945-972: the asymmetric tolerance shape, taking the `.get`-joined
threshold values: both `None` is an error, otherwise each present threshold
contributes its (validated) bound. -/
def boundsFromThresholds (target_value : ℚ) (less greater : Option ℚ) :
    Except Err (ℚ × Option ℚ × Option ℚ) :=
  if less.isNone ∧ greater.isNone then .error .configAllThresholdsNone
  else do
    let max_value ← maxValueFromGreater target_value greater
    let min_value ← minValueFromLess target_value less
    .ok (target_value, min_value, max_value)

/-- `Validator._get_min_max_value_from_expected_metrics` (lines 884-972):
convert a requirement into the triple `(target_value, min_value, max_value)`,
checking the four well-formedness conditions on the key set first, then
resolving the target and applying whichever tolerance shape is present. -/
def getMinMaxValueFromExpectedMetrics (req : MetricRequirement)
    (test_results_storage : Struct) : Except Err (ℚ × Option ℚ × Option ℚ) :=
  if req.target_value.isNone ∧ req.base.isNone then
    .error .configNoTarget
  else if req.target_value.isSome ∧ req.base.isSome then
    .error .configBothTargets
  else if req.max_diff.isNone ∧ req.max_diff_if_less_threshold.isNone ∧
      req.max_diff_if_greater_threshold.isNone then
    .error .configNoToleranceKeys
  else if req.max_diff.isSome ∧ (req.max_diff_if_less_threshold.isSome ∨
      req.max_diff_if_greater_threshold.isSome) then
    .error .configBothShapes
  else do
    let target_value ← resolveTargetValue req test_results_storage
    match req.max_diff with
    | some max_diff => boundsFromMaxDiff target_value max_diff
    | none =>
      boundsFromThresholds target_value req.max_diff_if_less_threshold.join
        req.max_diff_if_greater_threshold.join

/-- The failure message of `Validator._compare` for the two-sided case
(lines 990-992). -/
def failReasonRange (cur_res_addr : String) (target_value current_metric mn mx : ℚ) :
    String :=
  "Validation: failed: The metric " ++ cur_res_addr ++
    " is NOT in the acceptable range near the target value " ++ ratStr target_value ++
    ": " ++ ratStr current_metric ++ " is NOT in [" ++ ratStr mn ++ ", " ++ ratStr mx ++ "]"

/-- The failure message of `Validator._compare` for a one-sided comparison
(lines 1018-1020). -/
def failReasonOneSided (cur_res_addr : String) (cmp_str_true : String)
    (target_value acceptable_error current_metric : ℚ) (cmp_op_str_false : String)
    (threshold : ℚ) : String :=
  "Validation: failed: The metric " ++ cur_res_addr ++ " is NOT " ++ cmp_str_true ++
    " the target value " ++ ratStr target_value ++ " with acceptable error " ++
    ratStr acceptable_error ++ ": " ++ ratStr current_metric ++ " " ++
    cmp_op_str_false ++ " " ++ ratStr threshold

/-- `Validator._compare` (lines 974-1023): compare the observed metric value
against the bounds; both-sided bounds also assert
`min_value <= target_value <= max_value`, and at least one bound must be
present.  Returns `(is_passed, cur_fail_reason)`. -/
def compareMetric (current_metric : ℚ) (cur_res_addr : String) (target_value : ℚ)
    (min_value max_value : Option ℚ) : Except Err (Bool × Option String) :=
  match min_value, max_value with
  | some mn, some mx =>
    if ¬ (mn ≤ target_value ∧ target_value ≤ mx) then .error .compareAssert
    else if mn ≤ current_metric ∧ current_metric ≤ mx then
      .ok (true, none)
    else
      .ok (false, some (failReasonRange cur_res_addr target_value current_metric mn mx))
  | some mn, none =>
    let acceptable_error := |mn - target_value|
    if mn ≤ current_metric then .ok (true, none)
    else .ok (false, some (failReasonOneSided cur_res_addr "greater or equal"
      target_value acceptable_error current_metric "<" mn))
  | none, some mx =>
    let acceptable_error := |mx - target_value|
    if current_metric ≤ mx then .ok (true, none)
    else .ok (false, some (failReasonOneSided cur_res_addr "less or equal"
      target_value acceptable_error current_metric ">" mx))
  | none, none => .error .compareAssert

/-- Python's `'\n'.join(fail_reasons)` (line 1081). -/
def joinLines : List String → String
  | [] => ""
  | [a] => a
  | a :: rest => a ++ "\n" ++ joinLines rest

/-- Re-raising behaviour of the `except (ValueError, TypeError) as e: raise
ValueError(...) from e` clauses in `Validator.validate`: errors of the caught
classes are replaced by the wrapping error, others propagate unchanged. -/
def wrapCatchable (x : Except Err α) (wrapper : Err) : Except Err α :=
  match x with
  | .ok a => .ok a
  | .error e => .error (if e.isCatchable then wrapper else e)

/-- The body of the per-metric loop of `Validator.validate` (lines 1052-1077)
for one `(metric_address, requirement)` pair: fetch the observed value
(wrapping lookup/cast errors as line 1061), convert the requirement to bounds
(wrapping as line 1069), and compare. -/
def checkOneMetric (cur_res_addr : String) (cur_metric_requirements : MetricRequirement)
    (current_result : Struct) (test_results_storage : Struct) :
    Except Err (Bool × Option String) :=
  match wrapCatchable
      (match get_value_from_dict_by_dot_separated_address current_result cur_res_addr with
        | .error e => .error e
        | .ok v => structFloat v)
      (.metricNotFound cur_res_addr) with
  | .error e => .error e
  | .ok current_metric =>
    match wrapCatchable
        (getMinMaxValueFromExpectedMetrics cur_metric_requirements test_results_storage)
        (.expectedMetricsParse cur_res_addr) with
    | .error e => .error e
    | .ok (target_value, min_value, max_value) =>
      compareMetric current_metric cur_res_addr target_value min_value max_value

/-- The whole loop of `Validator.validate` over the expected-metrics mapping,
accumulating the failure reasons in order (an iteration appends
`cur_fail_reason` exactly when its comparison did not pass; exceptions abort
the loop, matching Python's control flow). -/
def validateLoop (expected : List (String × MetricRequirement))
    (current_result test_results_storage : Struct) : Except Err (List String) :=
  match expected with
  | [] => .ok []
  | (cur_res_addr, cur_metric_requirements) :: rest =>
    match checkOneMetric cur_res_addr cur_metric_requirements current_result
        test_results_storage with
    | .error e => .error e
    | .ok (cur_is_passed, cur_fail_reason) =>
      match validateLoop rest current_result test_results_storage with
      | .error e => .error e
      | .ok tail =>
        .ok (if cur_is_passed then tail else cur_fail_reason.getD "" :: tail)

/-- `Validator.validate` (lines 1025-1082).  `expected_metrics = none` models
a validator whose expected-metrics callback is `None` (validation skipped);
otherwise every pair is checked, and if any comparison failed, one aggregate
`pytest.fail` is raised whose message newline-joins every reason. -/
def Validator_validate (expected_metrics : Option (List (String × MetricRequirement)))
    (current_result test_results_storage : Struct) : Except Err Unit :=
  match expected_metrics with
  | none => .ok ()
  | some expected =>
    match validateLoop expected current_result test_results_storage with
    | .error e => .error e
    | .ok fail_reasons =>
      if fail_reasons.isEmpty then .ok ()
      else .error (.validationFailed ("Validation failed:\n" ++ joinLines fail_reasons))

/-- Errors of an action's `__call__`: the `RuntimeError` raised by
`BaseOTETestAction._check_result_prev_stages` and the raw Python `KeyError`
from subscripting a dict with an absent key are distinct exception classes,
so they get distinct constructors. -/
inductive ActionCallErr where
  /-- The `RuntimeError('The action ... requires results of the stage ..., but
  they are absent')` of `_check_result_prev_stages` (line 342). -/
  | missingDependency (action_name stage_name : String)
  /-- A raw Python `KeyError` from subscripting a dict with an absent key. -/
  | keyError (key : String)
  deriving DecidableEq, Repr

/-- `BaseOTETestAction._check_result_prev_stages` (lines 339-343): for each
required stage name, fail with the `RuntimeError` if the previous-results
mapping is falsy (`None` or empty) or does not contain the name, modelling
`if not results_prev_stages or stage_name not in results_prev_stages`.  The
ordered dict is modelled as an insertion-ordered association list. -/
def checkPrevStages (action_name : String)
    (results_prev_stages : List (String × Struct)) (list_required_stages : List String) :
    Except ActionCallErr Unit :=
  match list_required_stages with
  | [] => .ok ()
  | stage_name :: rest =>
    if results_prev_stages.isEmpty ∨ (results_prev_stages.lookup stage_name).isNone then
      .error (.missingDependency action_name stage_name)
    else checkPrevStages action_name results_prev_stages rest

/-- `d[k]` for the ordered dicts of previous-stage results. -/
def dictGetItem (d : List (String × Struct)) (k : String) : Except ActionCallErr Struct :=
  match d.lookup k with
  | some v => .ok v
  | none => .error (.keyError k)

/-- `s[k]` for a nested result bundle (a `Struct`). -/
def structGetItem (s : Struct) (k : String) : Except ActionCallErr Struct :=
  match s with
  | .dict entries =>
    match entries.lookup k with
    | some v => .ok v
    | none => .error (.keyError k)
  | _ => .error (.keyError k)

/-- The prelude of `OTETestPotAction.__call__` (lines 635-643): the defensive
check `self._check_result_prev_stages(results_prev_stages, ['export'])`
followed by the construction of the `kwargs` dict, which subscripts
`results_prev_stages['training']` (twice) and `results_prev_stages['export']`
in source order. -/
def potCallPrelude (results_prev_stages : List (String × Struct)) :
    Except ActionCallErr (Struct × Struct × Struct) := do
  checkPrevStages "pot" results_prev_stages ["export"]
  let training ← dictGetItem results_prev_stages "training"
  let model_template ← structGetItem training "model_template"
  let dataset ← structGetItem training "dataset"
  let export_results ← dictGetItem results_prev_stages "export"
  let environment_for_export ← structGetItem export_results "environment"
  .ok (model_template, dataset, environment_for_export)

/-- The behaviour-defining parameters of a test invocation
(`TEST_PARAMETERS_DEFINING_IMPL_BEHAVIOR`, lines 1284-1287).  The values are
opaque to the cache logic (only compared for equality), so they are modelled
as strings. -/
structure ParamsDefiningCache where
  model_name : String
  dataset_name : String
  num_training_iters : String
  batch_size : String
  deriving DecidableEq, Repr

/-- An `OTEIntegrationTestCase` instance as seen by the cache: an object
identity (fresh instances get fresh identities) and its shared
`test_results_storage`, which a fresh instance initialises empty
(line 1240). -/
structure TestCaseObj where
  obj_id : Nat
  test_results_storage : List (String × Struct)

/-- The class-scoped cache dict of `cached_from_prev_test_fx`: the four
behaviour-defining parameter keys (absent on first use) and the special key
`'_test_case_'`. -/
structure CacheDict where
  model_name : Option String
  dataset_name : Option String
  num_training_iters : Option String
  batch_size : Option String
  test_case : Option TestCaseObj

/-- The empty cache dict returned by the fixture on a fresh test-class run. -/
def CacheDict.empty : CacheDict := ⟨none, none, none, none, none⟩

/-- `TestOTEIntegration._clean_cache_if_parameters_changed` (lines 1412-1425):
`is_ok` iff every parameter key is cached with the same value; if so the cache
is kept, otherwise all keys are deleted and the parameter keys re-inserted
(which drops `'_test_case_'`). -/
def cleanCacheIfParametersChanged (cache : CacheDict) (p : ParamsDefiningCache) :
    CacheDict :=
  let is_ok := cache.model_name = some p.model_name ∧
    cache.dataset_name = some p.dataset_name ∧
    cache.num_training_iters = some p.num_training_iters ∧
    cache.batch_size = some p.batch_size
  if is_ok then cache
  else
    { model_name := some p.model_name
      dataset_name := some p.dataset_name
      num_training_iters := some p.num_training_iters
      batch_size := some p.batch_size
      test_case := none }

/-- `TestOTEIntegration._update_test_case_in_cache` (lines 1427-1458): clean
the cache if the behaviour-defining parameters changed, then create a fresh
`OTEIntegrationTestCase` (with a fresh identity `fresh_id` and empty result
storage) exactly when `'_test_case_'` is not cached, and return the cached
instance together with the updated cache. -/
def updateTestCaseInCache (cache : CacheDict) (p : ParamsDefiningCache)
    (fresh_id : Nat) : TestCaseObj × CacheDict :=
  let cache := cleanCacheIfParametersChanged cache p
  match cache.test_case with
  | some tc => (tc, cache)
  | none =>
    let tc : TestCaseObj := ⟨fresh_id, []⟩
    (tc, { cache with test_case := some tc })

/-- A Python exception instance as stored/re-raised by `OTETestStage`: an
identity (so that "the same exception instance" is expressible) plus the
special `RuntimeError` of the duplicate-stage-name check (line 1162). -/
inductive Exc where
  | exc (id : Nat)
  | duplicateStage (name : String)
  deriving DecidableEq, Repr

/-- An action as seen by `OTETestStage`: its class-level `_name` and
`_with_validation`, and its `__call__` behaviour as a function of the shared
`test_results_storage` (the `data_collector` argument is a pure logging side
channel and is not modelled). -/
structure ActionSpec where
  name : String
  with_validation : Bool
  run : List (String × Struct) → Except Exc Struct

/-- The validator argument of `run_once`: `None`, or an object whose
`validate(stage_results, test_results_storage)` may raise. -/
def StageValidator : Type :=
  Option (Option Struct → List (String × Struct) → Except Exc Unit)

/-- Trace events recorded by the model: the invocation of a stage's main
action, and an actual call of `validator.validate` on behalf of a stage. -/
inductive Event (n : Nat) where
  | runAction (i : Fin n)
  | runValidator (i : Fin n)
  deriving DecidableEq, Repr

/-- The mutable state of one `OTEIntegrationTestCase` run: the per-stage
fields of every `OTETestStage` (`was_processed`, `stored_exception`,
`stage_results`), the shared insertion-ordered `test_results_storage`, and
the event trace (a proof artefact recording action invocations and
validator calls). -/
structure TestState (n : Nat) where
  processed : Fin n → Bool
  storedExc : Fin n → Option Exc
  stageResults : Fin n → Option Struct
  storage : List (String × Struct)
  trace : List (Event n)

/-- The state after `OTEIntegrationTestCase.__init__`: every stage has
`was_processed = False`, `stored_exception = None`, `stage_results = None`
(lines 1097-1101) and the shared storage is empty (line 1240). -/
def initState (n : Nat) : TestState n :=
  { processed := fun _ => false
    storedExc := fun _ => none
    stageResults := fun _ => none
    storage := []
    trace := [] }

/-- A stage graph: the fixed set of `n` stages of a test case, each with its
action and its `depends_stages` list.  The stages of
`OTEIntegrationTestCase.__init__` are constructed in topological order
(every dependency is an earlier stage), captured by `deps_lt`; this is what
makes the recursion of `run_once` terminate. -/
structure StageGraph (n : Nat) where
  action : Fin n → ActionSpec
  deps : Fin n → List (Fin n)
  deps_lt : ∀ i, ∀ j ∈ deps i, j.val < i.val

/-- `OTETestStage._run_validation` (lines 1121-1130): skip unless the action
has `_with_validation` and a validator was supplied; otherwise call
`validator.validate(self.stage_results, test_results_storage)` (recorded as
a `runValidator` trace event). -/
def runValidation (g : StageGraph n) (i : Fin n) (validator : StageValidator)
    (s : TestState n) : Except Exc Unit × TestState n :=
  if (g.action i).with_validation = false then (.ok (), s)
  else
    match validator with
    | none => (.ok (), s)
    | some vf =>
      (vf (s.stageResults i) s.storage, { s with trace := s.trace ++ [.runValidator i] })

/-- The state change of the success branch of `run_once` (lines 1167-1173):
set `stage_results`, set `was_processed`, insert the result into the shared
storage keyed by the stage name. -/
def recordSuccess (g : StageGraph n) (s : TestState n) (i : Fin n) (results : Struct) :
    TestState n :=
  { s with
    processed := fun j => if j = i then true else s.processed j
    stageResults := fun j => if j = i then some results else s.stageResults j
    storage := s.storage ++ [((g.action i).name, results)]
    trace := s.trace ++ [.runAction i] }

/-- The state change of the failure branch of `run_once` (lines 1174-1179):
store the exception, set `was_processed`, leave the shared storage
untouched. -/
def recordFailure (s : TestState n) (i : Fin n) (e : Exc) : TestState n :=
  { s with
    processed := fun j => if j = i then true else s.processed j
    storedExc := fun j => if j = i then some e else s.storedExc j
    trace := s.trace ++ [.runAction i] }

mutual
/-- `OTETestStage.run_once` (lines 1132-1185): first run every dependency
stage with `validator = None`; a dependency exception propagates.  If this
stage `was_processed`: re-raise a stored exception
(`_reraise_stage_exception_if_was_failed`, lines 1110-1119) or re-run
validation on the cached result.  Otherwise fail on a duplicate stage name in
the storage, then run the action inside try/except: on success record the
result and run validation (outside the try/except); on exception store it,
mark processed and re-raise. -/
def runOnce (g : StageGraph n) (i : Fin n) (validator : StageValidator)
    (s : TestState n) : Except Exc Unit × TestState n :=
  match runDeps g i (g.deps i) (g.deps_lt i) s with
  | (.error e, s₁) => (.error e, s₁)
  | (.ok _, s₁) =>
    if s₁.processed i then
      match s₁.storedExc i with
      | some e => (.error e, s₁)
      | none => runValidation g i validator s₁
    else if (s₁.storage.lookup (g.action i).name).isSome then
      (.error (.duplicateStage (g.action i).name), s₁)
    else
      match (g.action i).run s₁.storage with
      | .ok results => runValidation g i validator (recordSuccess g s₁ i results)
      | .error e => (.error e, recordFailure s₁ i e)
termination_by (i.val, (g.deps i).length + 1)
decreasing_by
  exact Prod.Lex.right _ (Nat.lt_succ_self _)

/-- The dependency loop of `run_once` (lines 1138-1146): run each dependency
stage in order with `validator = None`; an exception aborts the loop and
propagates. -/
def runDeps (g : StageGraph n) (i : Fin n) (l : List (Fin n))
    (h : ∀ j ∈ l, j.val < i.val) (s : TestState n) :
    Except Exc Unit × TestState n :=
  match l, h with
  | [], _ => (.ok (), s)
  | j :: rest, h =>
    match runOnce g j none s with
    | (.error e, s') => (.error e, s')
    | (.ok _, s') =>
      runDeps g i rest (fun k hk => h k (List.mem_cons_of_mem j hk)) s'
termination_by (i.val, l.length)
decreasing_by
  · exact Prod.Lex.left _ _ (h j (List.mem_cons_self j rest))
  · exact Prod.Lex.right _ (Nat.lt_succ_self _)
end

/-- A sequence of `TestCase.run_stage` invocations (each with its own
validator), threading the mutable state; outcomes propagate to pytest and do
not stop later test invocations. -/
def runSequence (g : StageGraph n) : List (Fin n × StageValidator) → TestState n →
    TestState n
  | [], s => s
  | (i, v) :: rest, s => runSequence g rest (runOnce g i v s).2

/-- The stage names of `OTEIntegrationTestCase._TEST_STAGES`
(lines 1188-1192), indexed in construction order. -/
def oteStageNames : Fin 10 → String :=
  !["training", "training_evaluation", "export", "export_evaluation", "pot",
    "pot_evaluation", "nncf", "nncf_evaluation", "nncf_export",
    "nncf_export_evaluation"]

/-- The class-level `_with_validation` flags: exactly the `*_evaluation`
actions validate. -/
def oteWithValidation : Fin 10 → Bool :=
  ![false, true, false, true, false, true, false, true, false, true]

/-- The `depends_stages` lists of `OTEIntegrationTestCase.__init__`
(lines 1205-1226):
`training ← []`, `training_evaluation ← [training]`, `export ← [training]`,
`export_evaluation ← [export]`, `pot ← [export]`,
`pot_evaluation ← [pot, training_evaluation]`, `nncf ← [training]`,
`nncf_evaluation ← [nncf, training_evaluation]`, `nncf_export ← [nncf]`,
`nncf_export_evaluation ← [nncf_export, nncf_evaluation]`. -/
def oteDeps : Fin 10 → List (Fin 10) :=
  ![[], [0], [0], [2], [2], [4, 1], [0], [6, 1], [6], [8, 7]]

/-- The fixed stage DAG of `OTEIntegrationTestCase`, parametric in the
behaviour of the ten actions. -/
def oteGraph (runs : Fin 10 → List (String × Struct) → Except Exc Struct) :
    StageGraph 10 :=
  { action := fun i => ⟨oteStageNames i, oteWithValidation i, runs i⟩
    deps := oteDeps
    deps_lt := by decide }

/-! ## Unfolding lemmas for the stage machine -/

theorem runValidation_none (g : StageGraph n) (i : Fin n) (s : TestState n) :
    runValidation g i none s = (.ok (), s) := by
  unfold runValidation
  split <;> rfl

theorem runValidation_some (g : StageGraph n) (i : Fin n) (s : TestState n)
    (vf : Option Struct → List (String × Struct) → Except Exc Unit)
    (hw : (g.action i).with_validation = true) :
    runValidation g i (some vf) s =
      (vf (s.stageResults i) s.storage, { s with trace := s.trace ++ [.runValidator i] }) := by
  unfold runValidation
  rw [hw]
  rfl

theorem runValidation_skip (g : StageGraph n) (i : Fin n) (s : TestState n)
    (v : StageValidator) (hw : (g.action i).with_validation = false) :
    runValidation g i v s = (.ok (), s) := by
  unfold runValidation
  rw [hw]
  rfl

theorem runDeps_nil (g : StageGraph n) (i : Fin n) (h : ∀ j ∈ ([] : List (Fin n)), j.val < i.val)
    (s : TestState n) : runDeps g i [] h s = (.ok (), s) := by
  rw [runDeps]

theorem runDeps_cons_ok (g : StageGraph n) (i j : Fin n) (rest : List (Fin n))
    (h : ∀ k ∈ j :: rest, k.val < i.val) (h' : ∀ k ∈ rest, k.val < i.val)
    (s s' : TestState n)
    (hrun : runOnce g j none s = (.ok (), s')) :
    runDeps g i (j :: rest) h s = runDeps g i rest h' s' := by
  conv_lhs => rw [runDeps]
  rw [hrun]

theorem runDeps_cons_err (g : StageGraph n) (i j : Fin n) (rest : List (Fin n))
    (h : ∀ k ∈ j :: rest, k.val < i.val) (s s' : TestState n) (e : Exc)
    (hrun : runOnce g j none s = (.error e, s')) :
    runDeps g i (j :: rest) h s = (.error e, s') := by
  rw [runDeps, hrun]

theorem runOnce_deps_err (g : StageGraph n) (i : Fin n) (v : StageValidator)
    (s s₁ : TestState n) (e : Exc)
    (hdeps : runDeps g i (g.deps i) (g.deps_lt i) s = (.error e, s₁)) :
    runOnce g i v s = (.error e, s₁) := by
  rw [runOnce, hdeps]

theorem runOnce_replay_err (g : StageGraph n) (i : Fin n) (v : StageValidator)
    (s s₁ : TestState n) (e : Exc)
    (hdeps : runDeps g i (g.deps i) (g.deps_lt i) s = (.ok (), s₁))
    (hp : s₁.processed i = true) (he : s₁.storedExc i = some e) :
    runOnce g i v s = (.error e, s₁) := by
  rw [runOnce, hdeps]
  simp only [hp, if_true, he]

theorem runOnce_replay_ok (g : StageGraph n) (i : Fin n) (v : StageValidator)
    (s s₁ : TestState n)
    (hdeps : runDeps g i (g.deps i) (g.deps_lt i) s = (.ok (), s₁))
    (hp : s₁.processed i = true) (he : s₁.storedExc i = none) :
    runOnce g i v s = runValidation g i v s₁ := by
  conv_lhs => rw [runOnce]
  rw [hdeps]
  simp only [hp, if_true, he]

theorem runOnce_duplicate (g : StageGraph n) (i : Fin n) (v : StageValidator)
    (s s₁ : TestState n)
    (hdeps : runDeps g i (g.deps i) (g.deps_lt i) s = (.ok (), s₁))
    (hp : s₁.processed i = false)
    (hdup : (s₁.storage.lookup (g.action i).name).isSome = true) :
    runOnce g i v s = (.error (.duplicateStage (g.action i).name), s₁) := by
  rw [runOnce, hdeps]
  simp only [hp, if_false, hdup, Bool.false_eq_true, if_true]

theorem runOnce_run_ok (g : StageGraph n) (i : Fin n) (v : StageValidator)
    (s s₁ : TestState n) (results : Struct)
    (hdeps : runDeps g i (g.deps i) (g.deps_lt i) s = (.ok (), s₁))
    (hp : s₁.processed i = false)
    (hdup : s₁.storage.lookup (g.action i).name = none)
    (hrun : (g.action i).run s₁.storage = .ok results) :
    runOnce g i v s = runValidation g i v (recordSuccess g s₁ i results) := by
  conv_lhs => rw [runOnce]
  rw [hdeps]
  simp only [hp, Bool.false_eq_true, if_false, hdup, Option.isSome_none, hrun]

theorem runOnce_run_err (g : StageGraph n) (i : Fin n) (v : StageValidator)
    (s s₁ : TestState n) (e : Exc)
    (hdeps : runDeps g i (g.deps i) (g.deps_lt i) s = (.ok (), s₁))
    (hp : s₁.processed i = false)
    (hdup : s₁.storage.lookup (g.action i).name = none)
    (hrun : (g.action i).run s₁.storage = .error e) :
    runOnce g i v s = (.error e, recordFailure s₁ i e) := by
  rw [runOnce, hdeps]
  simp only [hp, Bool.false_eq_true, if_false, hdup, Option.isSome_none, hrun]

/-- Replay is a no-op: if every stage in a dependency-closed set `S` has
already been processed successfully, then `run_once` on a stage of `S` with
`validator = None` returns without touching the state (the dependency chain
replays, the stored success replays, and validation is skipped). -/
theorem runOnce_noop_aux (g : StageGraph n) (S : Fin n → Prop)
    (hclosed : ∀ j, S j → ∀ k ∈ g.deps j, S k) (s : TestState n)
    (hclean : ∀ j, S j → s.processed j = true ∧ s.storedExc j = none) :
    ∀ (m : Nat) (i : Fin n), i.val < m → S i → runOnce g i none s = (.ok (), s) := by
  intro m
  induction m with
  | zero => intro i hi; omega
  | succ m ih =>
    intro i hi hSi
    have hdeps : ∀ (l : List (Fin n)) (hl : ∀ j ∈ l, j.val < i.val),
        (∀ j ∈ l, S j) → runDeps g i l hl s = (.ok (), s) := by
      intro l
      induction l with
      | nil => intro hl _; exact runDeps_nil g i hl s
      | cons j rest ihl =>
        intro hl hS
        have hj : runOnce g j none s = (.ok (), s) := by
          have hjm : j.val < m := by
            have := hl j (List.mem_cons_self j rest)
            omega
          exact ih j hjm (hS j (List.mem_cons_self j rest))
        rw [runDeps_cons_ok g i j rest hl
          (fun k hk => hl k (List.mem_cons_of_mem j hk)) s s hj]
        exact ihl (fun k hk => hl k (List.mem_cons_of_mem j hk))
          (fun k hk => hS k (List.mem_cons_of_mem j hk))
    rw [runOnce_replay_ok g i none s s
      (hdeps (g.deps i) (g.deps_lt i) (hclosed i hSi))
      (hclean i hSi).1 (hclean i hSi).2]
    exact runValidation_none g i s

/-- `runOnce_noop_aux` without the fuel bound. -/
theorem runOnce_noop (g : StageGraph n) (S : Fin n → Prop)
    (hclosed : ∀ j, S j → ∀ k ∈ g.deps j, S k) (s : TestState n)
    (hclean : ∀ j, S j → s.processed j = true ∧ s.storedExc j = none)
    (i : Fin n) (hSi : S i) : runOnce g i none s = (.ok (), s) :=
  runOnce_noop_aux g S hclosed s hclean (i.val + 1) i (Nat.lt_succ_self _) hSi

/-- The set of stages strictly below `i` is dependency-closed, so if they are
all processed-clean the dependency loop of stage `i` is a no-op. -/
theorem runDeps_noop_below (g : StageGraph n) (i : Fin n) (s : TestState n)
    (hclean : ∀ k : Fin n, k.val < i.val →
      s.processed k = true ∧ s.storedExc k = none) :
    runDeps g i (g.deps i) (g.deps_lt i) s = (.ok (), s) := by
  have haux : ∀ (l : List (Fin n)) (hl : ∀ j ∈ l, j.val < i.val),
      runDeps g i l hl s = (.ok (), s) := by
    intro l
    induction l with
    | nil => intro hl; exact runDeps_nil g i hl s
    | cons j rest ihl =>
      intro hl
      have hj : runOnce g j none s = (.ok (), s) := by
        refine runOnce_noop g (fun k => k.val < i.val) ?_ s hclean j
          (hl j (List.mem_cons_self j rest))
        intro a ha k hk
        have := g.deps_lt a k hk
        omega
      rw [runDeps_cons_ok g i j rest hl
        (fun k hk => hl k (List.mem_cons_of_mem j hk)) s s hj]
      exact ihl (fun k hk => hl k (List.mem_cons_of_mem j hk))
  exact haux (g.deps i) (g.deps_lt i)

/-- The call-counting invariant behind at-most-once execution: the number of
`runAction i` events in the trace is exactly 1 for processed stages and 0 for
unprocessed ones. -/
def TraceInv (s : TestState n) : Prop :=
  ∀ i : Fin n, s.trace.count (Event.runAction i) = (if s.processed i then 1 else 0)

theorem traceInv_init (n : Nat) : TraceInv (initState n) := by
  intro i
  simp [initState]

theorem traceInv_runValidation (g : StageGraph n) (i : Fin n) (v : StageValidator)
    (s : TestState n) (h : TraceInv s) : TraceInv (runValidation g i v s).2 := by
  unfold runValidation
  split
  · exact h
  · match v with
    | none => exact h
    | some vf =>
      intro j
      have := h j
      simpa [List.count_append, List.count_cons, List.count_nil] using this

theorem traceInv_recordSuccess (g : StageGraph n) (s : TestState n) (i : Fin n)
    (results : Struct) (hp : s.processed i = false) (h : TraceInv s) :
    TraceInv (recordSuccess g s i results) := by
  intro j
  have hj := h j
  by_cases hji : j = i
  · subst hji
    simp only [recordSuccess, List.count_append, List.count_cons, List.count_nil,
      if_pos rfl]
    rw [hj, hp]
    simp
  · simp only [recordSuccess, List.count_append, List.count_cons, List.count_nil,
      if_neg hji]
    rw [hj]
    have : (Event.runAction i == Event.runAction j) = false := by
      simp [Event.runAction.injEq]
      exact fun hc => hji hc.symm
    simp [this]

theorem traceInv_recordFailure (s : TestState n) (i : Fin n) (e : Exc)
    (hp : s.processed i = false) (h : TraceInv s) :
    TraceInv (recordFailure s i e) := by
  intro j
  have hj := h j
  by_cases hji : j = i
  · subst hji
    simp only [recordFailure, List.count_append, List.count_cons, List.count_nil,
      if_pos rfl]
    rw [hj, hp]
    simp
  · simp only [recordFailure, List.count_append, List.count_cons, List.count_nil,
      if_neg hji]
    rw [hj]
    have : (Event.runAction i == Event.runAction j) = false := by
      simp [Event.runAction.injEq]
      exact fun hc => hji hc.symm
    simp [this]

theorem traceInv_runOnce_aux (g : StageGraph n) :
    ∀ (m : Nat) (i : Fin n), i.val < m → ∀ (v : StageValidator) (s : TestState n),
      TraceInv s → TraceInv (runOnce g i v s).2 := by
  intro m
  induction m with
  | zero => intro i hi; omega
  | succ m ih =>
    intro i hi v s hs
    have hdeps : ∀ (l : List (Fin n)) (hl : ∀ j ∈ l, j.val < i.val) (s' : TestState n),
        TraceInv s' → TraceInv (runDeps g i l hl s').2 := by
      intro l
      induction l with
      | nil =>
        intro hl s' h'
        rw [runDeps_nil]
        exact h'
      | cons j rest ihl =>
        intro hl s' h'
        have hjm : j.val < m := by
          have := hl j (List.mem_cons_self j rest)
          omega
        rcases hro : runOnce g j none s' with ⟨r, s''⟩
        have h'' : TraceInv s'' := by
          have := ih j hjm none s' h'
          rwa [hro] at this
        cases r with
        | error e =>
          rw [runDeps_cons_err g i j rest hl s' s'' e hro]
          exact h''
        | ok u =>
          cases u
          rw [runDeps_cons_ok g i j rest hl
            (fun k hk => hl k (List.mem_cons_of_mem j hk)) s' s'' hro]
          exact ihl _ s'' h''
    rcases hrd : runDeps g i (g.deps i) (g.deps_lt i) s with ⟨r, s₁⟩
    have h₁ : TraceInv s₁ := by
      have := hdeps (g.deps i) (g.deps_lt i) s hs
      rwa [hrd] at this
    cases r with
    | error e =>
      rw [runOnce_deps_err g i v s s₁ e hrd]
      exact h₁
    | ok u =>
      cases u
      by_cases hp : s₁.processed i = true
      · cases he : s₁.storedExc i with
        | some e =>
          rw [runOnce_replay_err g i v s s₁ e hrd hp he]
          exact h₁
        | none =>
          rw [runOnce_replay_ok g i v s s₁ hrd hp he]
          exact traceInv_runValidation g i v s₁ h₁
      · have hp' : s₁.processed i = false := by simpa using hp
        cases hdup : s₁.storage.lookup (g.action i).name with
        | some w =>
          rw [runOnce_duplicate g i v s s₁ hrd hp' (by rw [hdup]; rfl)]
          exact h₁
        | none =>
          cases hra : (g.action i).run s₁.storage with
          | error e =>
            rw [runOnce_run_err g i v s s₁ e hrd hp' hdup hra]
            exact traceInv_recordFailure s₁ i e hp' h₁
          | ok results =>
            rw [runOnce_run_ok g i v s s₁ results hrd hp' hdup hra]
            exact traceInv_runValidation g i v _
              (traceInv_recordSuccess g s₁ i results hp' h₁)

theorem traceInv_runOnce (g : StageGraph n) (i : Fin n) (v : StageValidator)
    (s : TestState n) (h : TraceInv s) : TraceInv (runOnce g i v s).2 :=
  traceInv_runOnce_aux g (i.val + 1) i (Nat.lt_succ_self _) v s h

theorem traceInv_runSequence (g : StageGraph n) :
    ∀ (calls : List (Fin n × StageValidator)) (s : TestState n),
      TraceInv s → TraceInv (runSequence g calls s) := by
  intro calls
  induction calls with
  | nil => intro s h; exact h
  | cons c rest ih =>
    intro s h
    rcases c with ⟨i, v⟩
    exact ih _ (traceInv_runOnce g i v s h)

theorem lookup_append_of_none {β : Type} (l₁ l₂ : List (String × β)) (k : String)
    (h : l₁.lookup k = none) : (l₁ ++ l₂).lookup k = l₂.lookup k := by
  induction l₁ with
  | nil => rfl
  | cons p rest ih =>
    rcases p with ⟨key, v⟩
    by_cases hk : (k == key) = true
    · simp [List.lookup, hk] at h
    · simp only [List.lookup, List.cons_append, hk] at h ⊢
      exact ih h

theorem lookup_append_of_some {β : Type} (l₁ l₂ : List (String × β)) (k : String)
    (v : β) (h : l₁.lookup k = some v) : (l₁ ++ l₂).lookup k = some v := by
  induction l₁ with
  | nil => simp [List.lookup] at h
  | cons p rest ih =>
    rcases p with ⟨key, w⟩
    by_cases hk : (k == key) = true
    · simp only [List.lookup, hk] at h ⊢
      exact h
    · simp only [List.lookup, List.cons_append, hk] at h ⊢
      exact ih h

theorem lookup_singleton_ne {β : Type} (k key : String) (v : β) (h : k ≠ key) :
    ([(key, v)] : List (String × β)).lookup k = none := by
  have hk : (k == key) = false := by simpa using h
  simp [List.lookup, hk]

/-- The storage invariant: a stage name is a key of the shared
`test_results_storage` if and only if that stage has been processed
successfully, in which case the stored value is exactly the cached
`stage_results`; failed or unprocessed stages have no entry. -/
def StoreInv (g : StageGraph n) (s : TestState n) : Prop :=
  ∀ i : Fin n,
    (s.processed i = false → s.storedExc i = none ∧ s.stageResults i = none ∧
      s.storage.lookup (g.action i).name = none) ∧
    (s.processed i = true → s.storedExc i = none →
      ∃ r, s.stageResults i = some r ∧ s.storage.lookup (g.action i).name = some r) ∧
    (∀ e, s.storedExc i = some e →
      s.stageResults i = none ∧ s.storage.lookup (g.action i).name = none)

theorem storeInv_init (n : Nat) (g : StageGraph n) : StoreInv g (initState n) := by
  intro i
  refine ⟨fun _ => ⟨rfl, rfl, rfl⟩, fun hp _ => by simp [initState] at hp,
    fun e he => by simp [initState] at he⟩

theorem storeInv_runValidation (g : StageGraph n) (i : Fin n) (v : StageValidator)
    (s : TestState n) (h : StoreInv g s) : StoreInv g (runValidation g i v s).2 := by
  unfold runValidation
  split
  · exact h
  · match v with
    | none => exact h
    | some vf => exact h

theorem storeInv_recordSuccess (g : StageGraph n) (s : TestState n) (i : Fin n)
    (results : Struct)
    (hinj : ∀ a b : Fin n, (g.action a).name = (g.action b).name → a = b)
    (hp : s.processed i = false) (h : StoreInv g s) :
    StoreInv g (recordSuccess g s i results) := by
  intro j
  rcases h j with ⟨h1, h2, h3⟩
  rcases (h i).1 hp with ⟨hie, hir, hil⟩
  by_cases hji : j = i
  · subst hji
    refine ⟨fun hpf => ?_, fun _ _ => ?_, fun e he => ?_⟩
    · simp [recordSuccess] at hpf
    · refine ⟨results, by simp [recordSuccess], ?_⟩
      simp only [recordSuccess]
      rw [lookup_append_of_none _ _ _ hil]
      simp [List.lookup]
    · simp only [recordSuccess] at he
      rw [hie] at he
      exact absurd he (by simp)
  · have hname : (g.action j).name ≠ (g.action i).name := fun hc => hji (hinj j i hc)
    have hlook : (recordSuccess g s i results).storage.lookup (g.action j).name =
        s.storage.lookup (g.action j).name := by
      simp only [recordSuccess]
      cases hl : s.storage.lookup (g.action j).name with
      | none =>
        rw [lookup_append_of_none _ _ _ hl]
        exact lookup_singleton_ne _ _ _ hname
      | some w => exact lookup_append_of_some _ _ _ _ hl
    refine ⟨fun hpf => ?_, fun hpt het => ?_, fun e he => ?_⟩
    · simp only [recordSuccess, if_neg hji] at hpf
      rcases h1 hpf with ⟨ha, hb, hc⟩
      exact ⟨ha, by simp [recordSuccess, if_neg hji, hb], by rw [hlook]; exact hc⟩
    · simp only [recordSuccess, if_neg hji] at hpt het
      rcases h2 hpt het with ⟨r, hr1, hr2⟩
      exact ⟨r, by simp [recordSuccess, if_neg hji, hr1], by rw [hlook]; exact hr2⟩
    · simp only [recordSuccess, if_neg hji] at he
      rcases h3 e he with ⟨ha, hb⟩
      exact ⟨by simp [recordSuccess, if_neg hji, ha], by rw [hlook]; exact hb⟩

theorem storeInv_recordFailure (g : StageGraph n) (s : TestState n) (i : Fin n)
    (e : Exc) (hp : s.processed i = false) (h : StoreInv g s) :
    StoreInv g (recordFailure s i e) := by
  intro j
  rcases h j with ⟨h1, h2, h3⟩
  rcases (h i).1 hp with ⟨hie, hir, hil⟩
  by_cases hji : j = i
  · subst hji
    refine ⟨fun hpf => ?_, fun _ het => ?_, fun e' he' => ?_⟩
    · simp [recordFailure] at hpf
    · simp only [recordFailure, if_pos rfl] at het
      exact absurd het (by simp)
    · exact ⟨by simp [recordFailure, hir], hil⟩
  · refine ⟨fun hpf => ?_, fun hpt het => ?_, fun e' he' => ?_⟩
    · simp only [recordFailure, if_neg hji] at hpf
      rcases h1 hpf with ⟨ha, hb, hc⟩
      exact ⟨by simp [recordFailure, if_neg hji, ha], by simp [recordFailure, hb], hc⟩
    · simp only [recordFailure, if_neg hji] at hpt het
      rcases h2 hpt het with ⟨r, hr1, hr2⟩
      exact ⟨r, by simp [recordFailure, hr1], hr2⟩
    · simp only [recordFailure, if_neg hji] at he'
      rcases h3 e' he' with ⟨ha, hb⟩
      exact ⟨by simp [recordFailure, ha], hb⟩

theorem storeInv_runOnce_aux (g : StageGraph n)
    (hinj : ∀ a b : Fin n, (g.action a).name = (g.action b).name → a = b) :
    ∀ (m : Nat) (i : Fin n), i.val < m → ∀ (v : StageValidator) (s : TestState n),
      StoreInv g s → StoreInv g (runOnce g i v s).2 := by
  intro m
  induction m with
  | zero => intro i hi; omega
  | succ m ih =>
    intro i hi v s hs
    have hdeps : ∀ (l : List (Fin n)) (hl : ∀ j ∈ l, j.val < i.val) (s' : TestState n),
        StoreInv g s' → StoreInv g (runDeps g i l hl s').2 := by
      intro l
      induction l with
      | nil =>
        intro hl s' h'
        rw [runDeps_nil]
        exact h'
      | cons j rest ihl =>
        intro hl s' h'
        have hjm : j.val < m := by
          have := hl j (List.mem_cons_self j rest)
          omega
        rcases hro : runOnce g j none s' with ⟨r, s''⟩
        have h'' : StoreInv g s'' := by
          have := ih j hjm none s' h'
          rwa [hro] at this
        cases r with
        | error e =>
          rw [runDeps_cons_err g i j rest hl s' s'' e hro]
          exact h''
        | ok u =>
          cases u
          rw [runDeps_cons_ok g i j rest hl
            (fun k hk => hl k (List.mem_cons_of_mem j hk)) s' s'' hro]
          exact ihl _ s'' h''
    rcases hrd : runDeps g i (g.deps i) (g.deps_lt i) s with ⟨r, s₁⟩
    have h₁ : StoreInv g s₁ := by
      have := hdeps (g.deps i) (g.deps_lt i) s hs
      rwa [hrd] at this
    cases r with
    | error e =>
      rw [runOnce_deps_err g i v s s₁ e hrd]
      exact h₁
    | ok u =>
      cases u
      by_cases hp : s₁.processed i = true
      · cases he : s₁.storedExc i with
        | some e =>
          rw [runOnce_replay_err g i v s s₁ e hrd hp he]
          exact h₁
        | none =>
          rw [runOnce_replay_ok g i v s s₁ hrd hp he]
          exact storeInv_runValidation g i v s₁ h₁
      · have hp' : s₁.processed i = false := by simpa using hp
        cases hdup : s₁.storage.lookup (g.action i).name with
        | some w =>
          rw [runOnce_duplicate g i v s s₁ hrd hp' (by rw [hdup]; rfl)]
          exact h₁
        | none =>
          cases hra : (g.action i).run s₁.storage with
          | error e =>
            rw [runOnce_run_err g i v s s₁ e hrd hp' hdup hra]
            exact storeInv_recordFailure g s₁ i e hp' h₁
          | ok results =>
            rw [runOnce_run_ok g i v s s₁ results hrd hp' hdup hra]
            exact storeInv_runValidation g i v _
              (storeInv_recordSuccess g s₁ i results hinj hp' h₁)

theorem storeInv_runOnce (g : StageGraph n)
    (hinj : ∀ a b : Fin n, (g.action a).name = (g.action b).name → a = b)
    (i : Fin n) (v : StageValidator) (s : TestState n) (h : StoreInv g s) :
    StoreInv g (runOnce g i v s).2 :=
  storeInv_runOnce_aux g hinj (i.val + 1) i (Nat.lt_succ_self _) v s h

theorem storeInv_runSequence (g : StageGraph n)
    (hinj : ∀ a b : Fin n, (g.action a).name = (g.action b).name → a = b) :
    ∀ (calls : List (Fin n × StageValidator)) (s : TestState n),
      StoreInv g s → StoreInv g (runSequence g calls s) := by
  intro calls
  induction calls with
  | nil => intro s h; exact h
  | cons c rest ih =>
    intro s h
    rcases c with ⟨i, v⟩
    exact ih _ (storeInv_runOnce g hinj i v s h)

/-! ## Claim theorems -/

/-- C5 (counterexample): the claim states that resolving the empty address
returns the struct itself, but Python's `''.split('.')` is `['']`, so the
resolver looks up the key `''`, fails with the address error on
`{"a": {"b": 5}}`, and does not return the struct. -/
theorem C5_empty_address_counterexample :
    get_value_from_dict_by_dot_separated_address
      (.dict [("a", .dict [("b", .num 5)])]) "" = .error (.addressAbsent "") ∧
    ¬ get_value_from_dict_by_dot_separated_address
        (.dict [("a", .dict [("b", .num 5)])]) "" =
      .ok (.dict [("a", .dict [("b", .num 5)])]) := by
  refine ⟨rfl, fun h => ?_⟩
  rw [show get_value_from_dict_by_dot_separated_address
    (.dict [("a", .dict [("b", .num 5)])]) "" = .error (.addressAbsent "") from rfl] at h
  exact Except.noConfusion h

/-- C5 (amended): resolving a dot-separated address descends the mapping one
key at a time; it fails with the address `ValueError` when an intermediate
key is absent and with the `isinstance` assertion failure when an
intermediate value is not a mapping while further descent is required; the
empty *address list* returns the struct itself, but the empty *address
string* splits to `['']` and is treated as the single key `''` (failing with
the address error whenever `''` is not a key).  In particular
`resolve({"a":{"b":5}}, "a.b") = 5` and `resolve(..., "a.c")` fails with the
address error. -/
theorem C5_resolver_behaviour :
    (∀ s : Struct, getByDotAddressList [] s = .ok s) ∧
    (∀ (k : String) (rest : List String) (entries : List (String × Struct)),
      entries.lookup k = none →
      getByDotAddressList (k :: rest) (.dict entries) = .error (.addressAbsent k)) ∧
    (∀ (k : String) (rest : List String) (entries : List (String × Struct)) (v : Struct),
      entries.lookup k = some v →
      getByDotAddressList (k :: rest) (.dict entries) = getByDotAddressList rest v) ∧
    (∀ (k : String) (rest : List String) (q : ℚ),
      getByDotAddressList (k :: rest) (.num q) = .error .notAMapping) ∧
    (∀ (entries : List (String × Struct)), entries.lookup "" = none →
      get_value_from_dict_by_dot_separated_address (.dict entries) "" =
        .error (.addressAbsent "")) ∧
    get_value_from_dict_by_dot_separated_address
      (.dict [("a", .dict [("b", .num 5)])]) "a.b" = .ok (.num 5) ∧
    get_value_from_dict_by_dot_separated_address
      (.dict [("a", .dict [("b", .num 5)])]) "a.c" = .error (.addressAbsent "c") := by
  refine ⟨fun s => rfl, fun k rest entries h => ?_, fun k rest entries v h => ?_,
    fun k rest q => rfl, fun entries h => ?_, rfl, rfl⟩
  · simp [getByDotAddressList, h]
  · simp [getByDotAddressList, h]
  · show getByDotAddressList [""] (.dict entries) = .error (.addressAbsent "")
    simp [getByDotAddressList, h]

/-- C5 witness: the amended theorem applied at concrete inputs. -/
theorem C5_resolver_behaviour_witness :
    getByDotAddressList ["x"] (.dict [("y", .num 1)]) = .error (.addressAbsent "x") ∧
    getByDotAddressList ["y"] (.dict [("y", .num 1)]) = getByDotAddressList [] (.num 1) ∧
    get_value_from_dict_by_dot_separated_address (.dict [("y", .num 1)]) "" =
      .error (.addressAbsent "") :=
  ⟨C5_resolver_behaviour.2.1 "x" [] [("y", .num 1)] rfl,
    C5_resolver_behaviour.2.2.1 "y" [] [("y", .num 1)] (.num 1) rfl,
    C5_resolver_behaviour.2.2.2.2.1 [("y", .num 1)] rfl⟩

/-- C4: for a requirement using the symmetric shape `max_diff = d ≥ 0` with a
literal target `T`, the computed acceptance triple is exactly
`(T, T - d, T + d)`, and `_compare` passes iff `T - d ≤ observed ≤ T + d`,
with both endpoints inclusive (the internal assert `min ≤ target ≤ max`
holds, so no assertion error is raised). -/
theorem C4_symmetric_tolerance (T d obs : ℚ) (addr : String) (storage : Struct)
    (hd : 0 ≤ d) :
    getMinMaxValueFromExpectedMetrics ⟨some T, none, some d, none, none⟩ storage =
      .ok (T, some (T - d), some (T + d)) ∧
    ((∃ r, compareMetric obs addr T (some (T - d)) (some (T + d)) = .ok (true, r)) ↔
      (T - d ≤ obs ∧ obs ≤ T + d)) ∧
    compareMetric (T - d) addr T (some (T - d)) (some (T + d)) = .ok (true, none) ∧
    compareMetric (T + d) addr T (some (T - d)) (some (T + d)) = .ok (true, none) := by
  have hassert : ¬¬(T - d ≤ T ∧ T ≤ T + d) :=
    not_not_intro ⟨by linarith, by linarith⟩
  refine ⟨?_, ?_, ?_, ?_⟩
  · show boundsFromMaxDiff T d = .ok (T, some (T - d), some (T + d))
    unfold boundsFromMaxDiff
    rw [if_neg (not_not_intro hd)]
  · simp only [compareMetric]
    rw [if_neg hassert]
    by_cases hc : T - d ≤ obs ∧ obs ≤ T + d
    · rw [if_pos hc]
      exact ⟨fun _ => hc, fun _ => ⟨none, rfl⟩⟩
    · rw [if_neg hc]
      refine ⟨fun ⟨r, hr⟩ => ?_, fun h => absurd h hc⟩
      simp at hr
  · simp only [compareMetric]
    rw [if_neg hassert, if_pos ⟨le_refl _, by linarith⟩]
  · simp only [compareMetric]
    rw [if_neg hassert, if_pos ⟨by linarith, le_refl _⟩]

/-- C4 witness: `T = 1`, `d = 1/2`, checking an interior point and the
boundary points. -/
theorem C4_symmetric_tolerance_witness :
    (0 : ℚ) ≤ 1/2 ∧
    getMinMaxValueFromExpectedMetrics ⟨some 1, none, some (1/2), none, none⟩
      (.dict []) = .ok (1, some (1 - 1/2), some (1 + 1/2)) ∧
    compareMetric (1 - 1/2) "m" 1 (some (1 - 1/2)) (some (1 + 1/2)) = .ok (true, none) :=
  ⟨by norm_num,
    (C4_symmetric_tolerance 1 (1/2) 0 "m" (.dict []) (by norm_num)).1,
    (C4_symmetric_tolerance 1 (1/2) 0 "m" (.dict []) (by norm_num)).2.2.1⟩

theorem exceptBind_ok {ε α β : Type} (a : α) (f : α → Except ε β) :
    (Except.ok a >>= f) = f a := rfl

theorem exceptBind_err {ε α β : Type} (e : ε) (f : α → Except ε β) :
    ((Except.error e : Except ε α) >>= f) = .error e := rfl

/-- Which error constructors correspond to the malformed-shape `ValueError`s
of `_get_min_max_value_from_expected_metrics` (the four key-set checks and
the all-thresholds-`None` check). -/
def isShapeErr : Err → Bool
  | .configNoTarget | .configBothTargets | .configNoToleranceKeys
  | .configBothShapes | .configAllThresholdsNone => true
  | _ => false

theorem getByDot_error_kinds :
    ∀ (l : List String) (s : Struct) (e : Err),
      getByDotAddressList l s = .error e →
      (∃ k, e = .addressAbsent k) ∨ e = .notAMapping := by
  intro l
  induction l with
  | nil =>
    intro s e h
    simp [getByDotAddressList] at h
  | cons k rest ih =>
    intro s e h
    cases s with
    | num v =>
      simp only [getByDotAddressList, Except.error.injEq] at h
      exact Or.inr h.symm
    | str v =>
      simp only [getByDotAddressList, Except.error.injEq] at h
      exact Or.inr h.symm
    | dict entries =>
      simp only [getByDotAddressList] at h
      cases hl : entries.lookup k with
      | none =>
        rw [hl] at h
        simp only [Except.error.injEq] at h
        exact Or.inl ⟨k, h.symm⟩
      | some v =>
        rw [hl] at h
        exact ih v e h

theorem resolveTargetValue_error_kinds (req : MetricRequirement) (storage : Struct)
    (e : Err) (h : resolveTargetValue req storage = .error e) :
    (∃ k, e = .addressAbsent k) ∨ e = .notAMapping ∨ e = .notAFloat ∨ e = .wrongParsing := by
  unfold resolveTargetValue at h
  cases htv : req.target_value with
  | some t =>
    rw [htv] at h
    exact absurd h (by simp)
  | none =>
    rw [htv] at h
    cases hb : req.base with
    | none =>
      rw [hb] at h
      simp only [Except.error.injEq] at h
      exact Or.inr (Or.inr (Or.inr h.symm))
    | some addr =>
      rw [hb] at h
      have h2 : (do
          let v ← get_value_from_dict_by_dot_separated_address storage addr
          structFloat v) = (Except.error e : Except Err ℚ) := h
      clear h
      cases hg : get_value_from_dict_by_dot_separated_address storage addr with
      | error e' =>
        rw [hg, exceptBind_err] at h2
        simp only [Except.error.injEq] at h2
        subst h2
        rcases getByDot_error_kinds _ _ _ hg with he | he
        · exact Or.inl he
        · exact Or.inr (Or.inl he)
      | ok v =>
        rw [hg, exceptBind_ok] at h2
        cases v with
        | num q => simp [structFloat] at h2
        | str sv =>
          simp only [structFloat, Except.error.injEq] at h2
          exact Or.inr (Or.inr (Or.inl h2.symm))
        | dict es =>
          simp only [structFloat, Except.error.injEq] at h2
          exact Or.inr (Or.inr (Or.inl h2.symm))

theorem resolveTargetValue_not_shape (req : MetricRequirement) (storage : Struct)
    (e : Err) (h : resolveTargetValue req storage = .error e) : isShapeErr e = false := by
  rcases resolveTargetValue_error_kinds req storage e h with ⟨k, rfl⟩ | rfl | rfl | rfl <;> rfl

theorem maxValueFromGreater_error (tv : ℚ) (o : Option ℚ) (e : Err)
    (h : maxValueFromGreater tv o = .error e) : e = .configNegGreaterThreshold := by
  cases o with
  | none => exact absurd h (by simp [maxValueFromGreater, pure, Except.pure])
  | some g =>
    by_cases hg : g ≥ 0
    · have h2 : maxValueFromGreater tv (some g) = pure (some (tv + g)) := by
        show (if ¬ g ≥ 0 then (.error .configNegGreaterThreshold : Except Err (Option ℚ))
          else pure (some (tv + g))) = pure (some (tv + g))
        rw [if_neg (not_not_intro hg)]
      rw [h2] at h
      exact absurd h (by simp [pure, Except.pure])
    · have h2 : maxValueFromGreater tv (some g) = .error .configNegGreaterThreshold := by
        show (if ¬ g ≥ 0 then (.error .configNegGreaterThreshold : Except Err (Option ℚ))
          else pure (some (tv + g))) = .error .configNegGreaterThreshold
        rw [if_pos hg]
      rw [h2] at h
      injection h with h3
      exact h3.symm

theorem minValueFromLess_error (tv : ℚ) (o : Option ℚ) (e : Err)
    (h : minValueFromLess tv o = .error e) : e = .configNegLessThreshold := by
  cases o with
  | none => exact absurd h (by simp [minValueFromLess, pure, Except.pure])
  | some l =>
    by_cases hl : l ≥ 0
    · have h2 : minValueFromLess tv (some l) = pure (some (tv - l)) := by
        show (if ¬ l ≥ 0 then (.error .configNegLessThreshold : Except Err (Option ℚ))
          else pure (some (tv - l))) = pure (some (tv - l))
        rw [if_neg (not_not_intro hl)]
      rw [h2] at h
      exact absurd h (by simp [pure, Except.pure])
    · have h2 : minValueFromLess tv (some l) = .error .configNegLessThreshold := by
        show (if ¬ l ≥ 0 then (.error .configNegLessThreshold : Except Err (Option ℚ))
          else pure (some (tv - l))) = .error .configNegLessThreshold
        rw [if_pos hl]
      rw [h2] at h
      injection h with h3
      exact h3.symm

theorem boundsFromThresholds_not_shape (tv : ℚ) (less greater : Option ℚ) (e : Err)
    (hne : ¬(less.isNone ∧ greater.isNone))
    (h : boundsFromThresholds tv less greater = .error e) : isShapeErr e = false := by
  unfold boundsFromThresholds at h
  rw [if_neg hne] at h
  cases hmg : maxValueFromGreater tv greater with
  | error e' =>
    rw [hmg, exceptBind_err] at h
    simp only [Except.error.injEq] at h
    rw [← h, maxValueFromGreater_error tv greater e' hmg]
    rfl
  | ok mx =>
    rw [hmg, exceptBind_ok] at h
    cases hml : minValueFromLess tv less with
    | error e' =>
      rw [hml, exceptBind_err] at h
      simp only [Except.error.injEq] at h
      rw [← h, minValueFromLess_error tv less e' hml]
      rfl
    | ok mn =>
      rw [hml, exceptBind_ok] at h
      exact absurd h (by simp)

theorem boundsFromMaxDiff_error (tv d : ℚ) (e : Err)
    (h : boundsFromMaxDiff tv d = .error e) : e = .configNegMaxDiff := by
  unfold boundsFromMaxDiff at h
  split at h
  · simpa using h.symm
  · exact absurd h (by simp)

/-- C6: converting a requirement to bounds raises the malformed-shape
configuration `ValueError` exactly on malformed shapes — both target sources
present, neither present, the `max_diff` shape together with a threshold key,
and no usable tolerance shape (no tolerance key at all, or both threshold
values `None` — the latter provided the target itself resolves, since the
key checks precede target resolution but the all-`None` check follows it).
A requirement with exactly one target source and exactly one tolerance shape
never produces a malformed-shape error (its failures, if any, are
address/cast/negativity errors). -/
theorem C6_shape_error_classification (req : MetricRequirement) (storage : Struct)
    (t : ℚ) :
    (req.target_value.isSome ∧ req.base.isSome →
      getMinMaxValueFromExpectedMetrics req storage = .error .configBothTargets) ∧
    (req.target_value.isNone ∧ req.base.isNone →
      getMinMaxValueFromExpectedMetrics req storage = .error .configNoTarget) ∧
    (req.max_diff.isSome ∧
        (req.max_diff_if_less_threshold.isSome ∨
          req.max_diff_if_greater_threshold.isSome) →
      ∃ e, getMinMaxValueFromExpectedMetrics req storage = .error e ∧
        isShapeErr e = true) ∧
    (req.max_diff.isNone ∧ req.max_diff_if_less_threshold.isNone ∧
        req.max_diff_if_greater_threshold.isNone →
      ∃ e, getMinMaxValueFromExpectedMetrics req storage = .error e ∧
        isShapeErr e = true) ∧
    (req.max_diff.isNone ∧ req.max_diff_if_less_threshold.join = none ∧
        req.max_diff_if_greater_threshold.join = none →
      resolveTargetValue req storage = .ok t →
      ∃ e, getMinMaxValueFromExpectedMetrics req storage = .error e ∧
        isShapeErr e = true) ∧
    ((req.target_value.isSome ↔ req.base.isNone) →
      ((req.max_diff.isSome ∧ req.max_diff_if_less_threshold = none ∧
          req.max_diff_if_greater_threshold = none) ∨
        (req.max_diff = none ∧
          (req.max_diff_if_less_threshold.join.isSome ∨
            req.max_diff_if_greater_threshold.join.isSome))) →
      ∀ e, getMinMaxValueFromExpectedMetrics req storage = .error e →
        isShapeErr e = false) := by
  refine ⟨?_, ?_, ?_, ?_, ?_, ?_⟩
  · rintro ⟨h1, h2⟩
    obtain ⟨a, ha⟩ := Option.isSome_iff_exists.mp h1
    obtain ⟨b, hb⟩ := Option.isSome_iff_exists.mp h2
    simp [getMinMaxValueFromExpectedMetrics, ha, hb]
  · rintro ⟨h1, h2⟩
    rw [Option.isNone_iff_eq_none] at h1 h2
    simp [getMinMaxValueFromExpectedMetrics, h1, h2]
  · rintro ⟨hmd, hth⟩
    obtain ⟨d, hd⟩ := Option.isSome_iff_exists.mp hmd
    cases htv : req.target_value with
    | none =>
      cases hba : req.base with
      | none =>
        exact ⟨.configNoTarget, by simp [getMinMaxValueFromExpectedMetrics, htv, hba], rfl⟩
      | some b =>
        refine ⟨.configBothShapes, ?_, rfl⟩
        rcases hth with h1 | h1 <;> obtain ⟨x, hx⟩ := Option.isSome_iff_exists.mp h1 <;>
          simp [getMinMaxValueFromExpectedMetrics, htv, hba, hd, hx]
    | some a =>
      cases hba : req.base with
      | some b =>
        exact ⟨.configBothTargets,
          by simp [getMinMaxValueFromExpectedMetrics, htv, hba], rfl⟩
      | none =>
        refine ⟨.configBothShapes, ?_, rfl⟩
        rcases hth with h1 | h1 <;> obtain ⟨x, hx⟩ := Option.isSome_iff_exists.mp h1 <;>
          simp [getMinMaxValueFromExpectedMetrics, htv, hba, hd, hx]
  · rintro ⟨hmd, hlt, hgt⟩
    rw [Option.isNone_iff_eq_none] at hmd hlt hgt
    cases htv : req.target_value with
    | none =>
      cases hba : req.base with
      | none =>
        exact ⟨.configNoTarget, by simp [getMinMaxValueFromExpectedMetrics, htv, hba], rfl⟩
      | some b =>
        exact ⟨.configNoToleranceKeys,
          by simp [getMinMaxValueFromExpectedMetrics, htv, hba, hmd, hlt, hgt], rfl⟩
    | some a =>
      cases hba : req.base with
      | some b =>
        exact ⟨.configBothTargets,
          by simp [getMinMaxValueFromExpectedMetrics, htv, hba], rfl⟩
      | none =>
        exact ⟨.configNoToleranceKeys,
          by simp [getMinMaxValueFromExpectedMetrics, htv, hba, hmd, hlt, hgt], rfl⟩
  · rintro ⟨hmd, hltj, hgtj⟩ hrt
    rw [Option.isNone_iff_eq_none] at hmd
    cases htv : req.target_value with
    | none =>
      cases hba : req.base with
      | none =>
        rw [show resolveTargetValue req storage = .error .wrongParsing by
          unfold resolveTargetValue; rw [htv, hba]] at hrt
        exact absurd hrt (by simp)
      | some b =>
        by_cases hkeys : req.max_diff_if_less_threshold = none ∧
            req.max_diff_if_greater_threshold = none
        · exact ⟨.configNoToleranceKeys,
            by simp [getMinMaxValueFromExpectedMetrics, htv, hba, hmd,
              hkeys.1, hkeys.2], rfl⟩
        · refine ⟨.configAllThresholdsNone, ?_, rfl⟩
          have hred : getMinMaxValueFromExpectedMetrics req storage =
              (resolveTargetValue req storage >>= fun target_value =>
                boundsFromThresholds target_value req.max_diff_if_less_threshold.join
                  req.max_diff_if_greater_threshold.join) := by
            unfold getMinMaxValueFromExpectedMetrics
            rw [if_neg (by simp [htv, hba]), if_neg (by simp [htv]),
              if_neg (by
                rintro ⟨_, h2, h3⟩
                exact hkeys ⟨Option.isNone_iff_eq_none.mp h2,
                  Option.isNone_iff_eq_none.mp h3⟩),
              if_neg (by simp [hmd]), hmd]
          rw [hred, hrt, exceptBind_ok, hltj, hgtj]
          rfl
    | some a =>
      cases hba : req.base with
      | some b =>
        exact ⟨.configBothTargets,
          by simp [getMinMaxValueFromExpectedMetrics, htv, hba], rfl⟩
      | none =>
        by_cases hkeys : req.max_diff_if_less_threshold = none ∧
            req.max_diff_if_greater_threshold = none
        · exact ⟨.configNoToleranceKeys,
            by simp [getMinMaxValueFromExpectedMetrics, htv, hba, hmd,
              hkeys.1, hkeys.2], rfl⟩
        · refine ⟨.configAllThresholdsNone, ?_, rfl⟩
          have hred : getMinMaxValueFromExpectedMetrics req storage =
              (resolveTargetValue req storage >>= fun target_value =>
                boundsFromThresholds target_value req.max_diff_if_less_threshold.join
                  req.max_diff_if_greater_threshold.join) := by
            unfold getMinMaxValueFromExpectedMetrics
            rw [if_neg (by simp [htv]), if_neg (by simp [hba]),
              if_neg (by
                rintro ⟨_, h2, h3⟩
                exact hkeys ⟨Option.isNone_iff_eq_none.mp h2,
                  Option.isNone_iff_eq_none.mp h3⟩),
              if_neg (by simp [hmd]), hmd]
          rw [hred, hrt, exceptBind_ok, hltj, hgtj]
          rfl
  · intro hsrc hshape e he
    have hnot1 : ¬(req.target_value.isNone ∧ req.base.isNone) := by
      rintro ⟨h1, h2⟩
      rw [Option.isNone_iff_eq_none] at h1
      have := hsrc.mpr h2
      rw [h1] at this
      simp at this
    have hnot2 : ¬(req.target_value.isSome ∧ req.base.isSome) := by
      rintro ⟨h1, h2⟩
      have := hsrc.mp h1
      rw [Option.isNone_iff_eq_none] at this
      rw [this] at h2
      simp at h2
    rcases hshape with ⟨hmd, hlt, hgt⟩ | ⟨hmd, hjoin⟩
    · obtain ⟨d, hd⟩ := Option.isSome_iff_exists.mp hmd
      have hred : getMinMaxValueFromExpectedMetrics req storage =
          (resolveTargetValue req storage >>= fun tv => boundsFromMaxDiff tv d) := by
        unfold getMinMaxValueFromExpectedMetrics
        rw [if_neg hnot1, if_neg hnot2, if_neg (by simp [hd]),
          if_neg (by simp [hlt, hgt]), hd]
      rw [hred] at he
      cases hrt : resolveTargetValue req storage with
      | error e' =>
        rw [hrt, exceptBind_err] at he
        simp only [Except.error.injEq] at he
        subst he
        exact resolveTargetValue_not_shape req storage e' hrt
      | ok tv =>
        rw [hrt, exceptBind_ok] at he
        rw [boundsFromMaxDiff_error tv d e he]
        rfl
    · have hnot3 : ¬(req.max_diff.isNone ∧ req.max_diff_if_less_threshold.isNone ∧
          req.max_diff_if_greater_threshold.isNone) := by
        rintro ⟨_, h2, h3⟩
        rw [Option.isNone_iff_eq_none] at h2 h3
        rcases hjoin with h4 | h4 <;> simp [h2, h3, Option.join] at h4
      have hred : getMinMaxValueFromExpectedMetrics req storage =
          (resolveTargetValue req storage >>= fun tv =>
            boundsFromThresholds tv req.max_diff_if_less_threshold.join
              req.max_diff_if_greater_threshold.join) := by
        unfold getMinMaxValueFromExpectedMetrics
        rw [if_neg hnot1, if_neg hnot2, if_neg hnot3, if_neg (by simp [hmd]), hmd]
      rw [hred] at he
      cases hrt : resolveTargetValue req storage with
      | error e' =>
        rw [hrt, exceptBind_err] at he
        simp only [Except.error.injEq] at he
        subst he
        exact resolveTargetValue_not_shape req storage e' hrt
      | ok tv =>
        rw [hrt, exceptBind_ok] at he
        refine boundsFromThresholds_not_shape tv _ _ e ?_ he
        rintro ⟨h1, h2⟩
        rw [Option.isNone_iff_eq_none] at h1 h2
        rcases hjoin with h4 | h4
        · rw [h1] at h4
          exact absurd h4 (by simp)
        · rw [h2] at h4
          exact absurd h4 (by simp)

/-- C6 witness: each classified shape at a concrete requirement. -/
theorem C6_shape_error_classification_witness :
    getMinMaxValueFromExpectedMetrics ⟨some 1, some "a", some 1, none, none⟩
      (.dict []) = .error .configBothTargets ∧
    getMinMaxValueFromExpectedMetrics ⟨none, none, some 1, none, none⟩
      (.dict []) = .error .configNoTarget ∧
    (∃ e, getMinMaxValueFromExpectedMetrics ⟨some 1, none, some 1, some none, none⟩
      (.dict []) = .error e ∧ isShapeErr e = true) ∧
    (∃ e, getMinMaxValueFromExpectedMetrics ⟨some 1, none, none, none, none⟩
      (.dict []) = .error e ∧ isShapeErr e = true) ∧
    (∃ e, getMinMaxValueFromExpectedMetrics ⟨some 1, none, none, some none, some none⟩
      (.dict []) = .error e ∧ isShapeErr e = true) ∧
    (∀ e, getMinMaxValueFromExpectedMetrics ⟨some 1, none, some 1, none, none⟩
      (.dict []) = .error e → isShapeErr e = false) :=
  ⟨(C6_shape_error_classification ⟨some 1, some "a", some 1, none, none⟩
      (.dict []) 1).1 ⟨rfl, rfl⟩,
    (C6_shape_error_classification ⟨none, none, some 1, none, none⟩
      (.dict []) 1).2.1 ⟨rfl, rfl⟩,
    (C6_shape_error_classification ⟨some 1, none, some 1, some none, none⟩
      (.dict []) 1).2.2.1 ⟨rfl, Or.inl rfl⟩,
    (C6_shape_error_classification ⟨some 1, none, none, none, none⟩
      (.dict []) 1).2.2.2.1 ⟨rfl, rfl, rfl⟩,
    (C6_shape_error_classification ⟨some 1, none, none, some none, some none⟩
      (.dict []) 1).2.2.2.2.1 ⟨rfl, rfl, rfl⟩ rfl,
    (C6_shape_error_classification ⟨some 1, none, some 1, none, none⟩
      (.dict []) 1).2.2.2.2.2 (by simp) (Or.inl ⟨rfl, rfl, rfl⟩)⟩

/-! ## Infrastructure for the validation-aggregation claim -/

theorem infix_append_right_extend {α : Type} (l l₁ l₂ : List α) (h : l <:+: l₁) :
    l <:+: l₁ ++ l₂ := by
  rcases h with ⟨s, t, rfl⟩
  exact ⟨s, t ++ l₂, by simp⟩

theorem infix_append_left_extend {α : Type} (l l₁ l₂ : List α) (h : l <:+: l₂) :
    l <:+: l₁ ++ l₂ := by
  rcases h with ⟨s, t, rfl⟩
  exact ⟨l₁ ++ s, t, by simp⟩

theorem str_infix_append_right (a b c : String) (h : a.data <:+: b.data) :
    a.data <:+: (b ++ c).data := by
  rw [String.data_append]
  exact infix_append_right_extend _ _ _ h

theorem str_infix_append_left (a b c : String) (h : a.data <:+: c.data) :
    a.data <:+: (b ++ c).data := by
  rw [String.data_append]
  exact infix_append_left_extend _ _ _ h

theorem str_suffix_append (a b : String) : a.data <:+: (b ++ a).data := by
  rw [String.data_append]
  exact (List.suffix_append _ _).isInfix

/-- The metric address is interpolated into the two-sided failure message. -/
theorem addr_infix_failReasonRange (addr : String) (t c mn mx : ℚ) :
    addr.data <:+: (failReasonRange addr t c mn mx).data := by
  unfold failReasonRange
  apply str_infix_append_right
  apply str_infix_append_right
  apply str_infix_append_right
  apply str_infix_append_right
  apply str_infix_append_right
  apply str_infix_append_right
  apply str_infix_append_right
  apply str_infix_append_right
  apply str_infix_append_right
  exact str_suffix_append addr _

/-- Every accumulated reason is a substring of the newline-joined message. -/
theorem joinLines_mem_substring (l : List String) (r : String) (h : r ∈ l) :
    r.data <:+: (joinLines l).data := by
  induction l with
  | nil => cases h
  | cons a rest ih =>
    cases rest with
    | nil =>
      rw [List.mem_singleton] at h
      subst h
      exact List.infix_refl _
    | cons b rest2 =>
      rcases List.mem_cons.mp h with rfl | h2
      · show r.data <:+: (r ++ "\n" ++ joinLines (b :: rest2)).data
        apply str_infix_append_right
        apply str_infix_append_right
        exact List.infix_refl _
      · show r.data <:+: (a ++ "\n" ++ joinLines (b :: rest2)).data
        exact str_infix_append_left _ _ _ (ih h2)

theorem validateLoop_nil (cur storage : Struct) : validateLoop [] cur storage = .ok [] :=
  rfl

theorem validateLoop_cons_err (addr : String) (req : MetricRequirement)
    (rest : List (String × MetricRequirement)) (cur storage : Struct) (e : Err)
    (hc : checkOneMetric addr req cur storage = .error e) :
    validateLoop ((addr, req) :: rest) cur storage = .error e := by
  unfold validateLoop
  rw [hc]

theorem validateLoop_cons_ok (addr : String) (req : MetricRequirement)
    (rest : List (String × MetricRequirement)) (cur storage : Struct) (p : Bool)
    (r : Option String) (hc : checkOneMetric addr req cur storage = .ok (p, r)) :
    validateLoop ((addr, req) :: rest) cur storage =
      match validateLoop rest cur storage with
      | .error e => .error e
      | .ok tail => .ok (if p then tail else r.getD "" :: tail) := by
  conv_lhs => rw [validateLoop]
  rw [hc]

/-- The per-pair outcome used to express "every pair is checked": the reason
contributed by one `(address, requirement)` pair (`none` when it passes). -/
def pairFailReason (cur storage : Struct) (p : String × MetricRequirement) :
    Option String :=
  match checkOneMetric p.1 p.2 cur storage with
  | .ok (false, r) => some (r.getD "")
  | _ => none

/-- If the loop finishes without an exception, the accumulated reasons are
exactly the reasons of all failing pairs, in order. -/
theorem validateLoop_reasons :
    ∀ (expected : List (String × MetricRequirement)) (cur storage : Struct)
      (reasons : List String),
      validateLoop expected cur storage = .ok reasons →
      reasons = expected.filterMap (pairFailReason cur storage) := by
  intro expected
  induction expected with
  | nil =>
    intro cur storage reasons h
    rw [validateLoop_nil] at h
    simp only [Except.ok.injEq] at h
    simp [← h]
  | cons pr rest ih =>
    intro cur storage reasons h
    rcases pr with ⟨addr, req⟩
    cases hc : checkOneMetric addr req cur storage with
    | error e =>
      rw [validateLoop_cons_err addr req rest cur storage e hc] at h
      exact absurd h (by simp)
    | ok pq =>
      rcases pq with ⟨p, r⟩
      rw [validateLoop_cons_ok addr req rest cur storage p r hc] at h
      cases ht : validateLoop rest cur storage with
      | error e =>
        rw [ht] at h
        exact absurd h (by simp)
      | ok tail =>
        rw [ht] at h
        cases p with
        | true =>
          simp only [if_true, Except.ok.injEq] at h
          subst h
          rw [List.filterMap_cons]
          have : pairFailReason cur storage (addr, req) = none := by
            unfold pairFailReason
            rw [hc]
          rw [this]
          exact ih cur storage tail ht
        | false =>
          simp only [if_false, Except.ok.injEq] at h
          subst h
          rw [List.filterMap_cons]
          have : pairFailReason cur storage (addr, req) = some (r.getD "") := by
            unfold pairFailReason
            rw [hc]
          rw [this]
          rw [ih cur storage tail ht]
          simp

theorem wrapCatchable_ok {α : Type} (a : α) (w : Err) :
    wrapCatchable (.ok a) w = .ok a := rfl

theorem checkOneMetric_steps (cur_res_addr : String) (req : MetricRequirement)
    (current_result storage : Struct) (cm : ℚ) (t : ℚ) (mn mx : Option ℚ)
    (h1 : wrapCatchable
      (match get_value_from_dict_by_dot_separated_address current_result cur_res_addr with
        | .error e => .error e
        | .ok v => structFloat v)
      (.metricNotFound cur_res_addr) = .ok cm)
    (h2 : getMinMaxValueFromExpectedMetrics req storage = .ok (t, mn, mx)) :
    checkOneMetric cur_res_addr req current_result storage =
      compareMetric cm cur_res_addr t mn mx := by
  unfold checkOneMetric
  rw [h1, h2, wrapCatchable_ok]

/-- The two-failing-metrics example: both metrics are far outside their
required range `[1, 1]`. -/
def c3Requirement : MetricRequirement := ⟨some 1, none, some 0, none, none⟩

def c3Expected : List (String × MetricRequirement) :=
  [("metrics.accuracy.a", c3Requirement), ("metrics.accuracy.b", c3Requirement)]

def c3Result : Struct :=
  .dict [("metrics", .dict [("accuracy", .dict [("a", .num 0), ("b", .num 0)])])]

def c3Reasons : List String :=
  [failReasonRange "metrics.accuracy.a" 1 0 1 1,
   failReasonRange "metrics.accuracy.b" 1 0 1 1]

def c3Msg : String := "Validation failed:\n" ++ joinLines c3Reasons

theorem c3_getMinMax_eq :
    getMinMaxValueFromExpectedMetrics c3Requirement (.dict []) = .ok (1, some 1, some 1) := by
  show boundsFromMaxDiff 1 0 = .ok (1, some 1, some 1)
  unfold boundsFromMaxDiff
  rw [if_neg (not_not_intro (le_refl (0 : ℚ)))]
  norm_num

theorem c3_compare_eq (addr : String) :
    compareMetric 0 addr 1 (some 1) (some 1) =
      .ok (false, some (failReasonRange addr 1 0 1 1)) := by
  simp only [compareMetric]
  rw [if_neg (not_not_intro ⟨le_refl (1 : ℚ), le_refl (1 : ℚ)⟩), if_neg (by norm_num)]

theorem c3_checkA :
    checkOneMetric "metrics.accuracy.a" c3Requirement c3Result (.dict []) =
      .ok (false, some (failReasonRange "metrics.accuracy.a" 1 0 1 1)) := by
  rw [checkOneMetric_steps "metrics.accuracy.a" c3Requirement c3Result (.dict [])
    0 1 (some 1) (some 1) rfl c3_getMinMax_eq]
  exact c3_compare_eq _

theorem c3_checkB :
    checkOneMetric "metrics.accuracy.b" c3Requirement c3Result (.dict []) =
      .ok (false, some (failReasonRange "metrics.accuracy.b" 1 0 1 1)) := by
  rw [checkOneMetric_steps "metrics.accuracy.b" c3Requirement c3Result (.dict [])
    0 1 (some 1) (some 1) rfl c3_getMinMax_eq]
  exact c3_compare_eq _

theorem c3_validateLoop_eq :
    validateLoop c3Expected c3Result (.dict []) = .ok c3Reasons := by
  show validateLoop (("metrics.accuracy.a", c3Requirement) ::
    [("metrics.accuracy.b", c3Requirement)]) c3Result (.dict []) = .ok c3Reasons
  rw [validateLoop_cons_ok _ _ _ _ _ false
    (some (failReasonRange "metrics.accuracy.a" 1 0 1 1)) c3_checkA]
  rw [validateLoop_cons_ok _ _ _ _ _ false
    (some (failReasonRange "metrics.accuracy.b" 1 0 1 1)) c3_checkB]
  rw [validateLoop_nil]
  rfl

theorem c3_validate_eq :
    Validator_validate (some c3Expected) c3Result (.dict []) =
      .error (.validationFailed c3Msg) := by
  show (match validateLoop c3Expected c3Result (.dict []) with
    | .error e => (.error e : Except Err Unit)
    | .ok fail_reasons =>
      if fail_reasons.isEmpty then .ok ()
      else .error (.validationFailed ("Validation failed:\n" ++ joinLines fail_reasons))) =
    .error (.validationFailed c3Msg)
  rw [c3_validateLoop_eq]
  rfl

/-- C3: `Validator.validate` checks every `(metric_address, requirement)`
pair even after an individual comparison fails: when the loop finishes
without an exception, the accumulated list holds exactly the reasons of all
failing pairs in order, and if at least one failed, the method raises exactly
one aggregate failure whose message newline-joins every individual reason
(each reason is a substring of the message).  In particular the concrete
result with two failing metrics yields one failure mentioning both metric
addresses. -/
theorem C3_aggregate_validation (expected : List (String × MetricRequirement))
    (cur storage : Struct) (reasons : List String)
    (h : validateLoop expected cur storage = .ok reasons) :
    reasons = expected.filterMap (pairFailReason cur storage) ∧
    Validator_validate (some expected) cur storage =
      (if reasons.isEmpty then .ok ()
       else .error (.validationFailed ("Validation failed:\n" ++ joinLines reasons))) ∧
    (∀ r ∈ reasons, r.data <:+: ("Validation failed:\n" ++ joinLines reasons).data) ∧
    Validator_validate (some c3Expected) c3Result (.dict []) =
      .error (.validationFailed c3Msg) ∧
    "metrics.accuracy.a".data <:+: c3Msg.data ∧
    "metrics.accuracy.b".data <:+: c3Msg.data := by
  refine ⟨validateLoop_reasons expected cur storage reasons h, ?_, ?_,
    c3_validate_eq, ?_, ?_⟩
  · show (match validateLoop expected cur storage with
      | .error e => (.error e : Except Err Unit)
      | .ok fail_reasons =>
        if fail_reasons.isEmpty then .ok ()
        else .error (.validationFailed ("Validation failed:\n" ++ joinLines fail_reasons))) = _
    rw [h]
  · intro r hr
    exact str_infix_append_left _ _ _ (joinLines_mem_substring reasons r hr)
  · show _ <:+: ("Validation failed:\n" ++ joinLines c3Reasons).data
    refine ((addr_infix_failReasonRange "metrics.accuracy.a" 1 0 1 1).trans ?_)
    exact str_infix_append_left _ _ _
      (joinLines_mem_substring c3Reasons _ (by simp [c3Reasons]))
  · show _ <:+: ("Validation failed:\n" ++ joinLines c3Reasons).data
    refine ((addr_infix_failReasonRange "metrics.accuracy.b" 1 0 1 1).trans ?_)
    exact str_infix_append_left _ _ _
      (joinLines_mem_substring c3Reasons _ (by simp [c3Reasons]))

/-- C3 witness: the theorem applied at the two-failing-metrics example. -/
theorem C3_aggregate_validation_witness :
    c3Reasons = c3Expected.filterMap (pairFailReason c3Result (.dict [])) ∧
    Validator_validate (some c3Expected) c3Result (.dict []) =
      .error (.validationFailed c3Msg) :=
  ⟨(C3_aggregate_validation c3Expected c3Result (.dict []) c3Reasons
      c3_validateLoop_eq).1,
    (C3_aggregate_validation c3Expected c3Result (.dict []) c3Reasons
      c3_validateLoop_eq).2.2.2.1⟩

/-- C9: the cross-invocation cache holds at most one live test case.  When
all four behaviour-defining parameters equal the cached ones, the cache is
kept untouched and the same `OTEIntegrationTestCase` instance is returned;
when any of them differs, the cache is fully cleared and a fresh instance
with an empty result storage is built, cached and returned. -/
theorem C9_cache_invalidation (cache : CacheDict) (p : ParamsDefiningCache)
    (tc : TestCaseObj) (fresh_id : Nat) :
    (cache.model_name = some p.model_name →
      cache.dataset_name = some p.dataset_name →
      cache.num_training_iters = some p.num_training_iters →
      cache.batch_size = some p.batch_size →
      cache.test_case = some tc →
      updateTestCaseInCache cache p fresh_id = (tc, cache)) ∧
    ((cache.model_name ≠ some p.model_name ∨ cache.dataset_name ≠ some p.dataset_name ∨
        cache.num_training_iters ≠ some p.num_training_iters ∨
        cache.batch_size ≠ some p.batch_size) →
      updateTestCaseInCache cache p fresh_id =
        (⟨fresh_id, []⟩,
          ⟨some p.model_name, some p.dataset_name, some p.num_training_iters,
            some p.batch_size, some ⟨fresh_id, []⟩⟩)) := by
  constructor
  · intro h1 h2 h3 h4 h5
    have hclean : cleanCacheIfParametersChanged cache p = cache := by
      unfold cleanCacheIfParametersChanged
      rw [if_pos ⟨h1, h2, h3, h4⟩]
    unfold updateTestCaseInCache
    rw [hclean]
    show (match cache.test_case with
      | some tc => (tc, cache)
      | none =>
        (⟨fresh_id, []⟩, { cache with test_case := some ⟨fresh_id, []⟩ })) = (tc, cache)
    rw [h5]
  · intro hne
    have hclean : cleanCacheIfParametersChanged cache p =
        ⟨some p.model_name, some p.dataset_name, some p.num_training_iters,
          some p.batch_size, none⟩ := by
      unfold cleanCacheIfParametersChanged
      rw [if_neg (by rintro ⟨h1, h2, h3, h4⟩; rcases hne with h | h | h | h <;> exact h (by assumption))]
    unfold updateTestCaseInCache
    rw [hclean]

/-- C9 witness: a cache hit returns the cached instance; changing
`batch_size` rebuilds a fresh test case with an empty result storage. -/
theorem C9_cache_invalidation_witness :
    updateTestCaseInCache
      ⟨some "m", some "d", some "5", some "2", some ⟨7, [("training", .num 1)]⟩⟩
      ⟨"m", "d", "5", "2"⟩ 8 =
      (⟨7, [("training", .num 1)]⟩,
        ⟨some "m", some "d", some "5", some "2", some ⟨7, [("training", .num 1)]⟩⟩) ∧
    updateTestCaseInCache
      ⟨some "m", some "d", some "5", some "2", some ⟨7, [("training", .num 1)]⟩⟩
      ⟨"m", "d", "5", "4"⟩ 8 =
      (⟨8, []⟩, ⟨some "m", some "d", some "5", some "4", some ⟨8, []⟩⟩) :=
  ⟨(C9_cache_invalidation _ _ ⟨7, [("training", .num 1)]⟩ 8).1 rfl rfl rfl rfl rfl,
    (C9_cache_invalidation _ ⟨"m", "d", "5", "4"⟩ ⟨7, [("training", .num 1)]⟩ 8).2
      (Or.inr (Or.inr (Or.inr (by simp))))⟩

/-- C8: the claim says every action fails with the missing-dependency error
when a needed prior stage is absent, but `OTETestPotAction.__call__` declares
only `['export']` in its defensive check while also consuming
`results_prev_stages['training']`: with a prior-results mapping containing
only `export`, the check passes and the `kwargs` construction raises a raw
`KeyError('training')` instead of the missing-dependency `RuntimeError`. -/
theorem C8_pot_missing_training_keyerror :
    checkPrevStages "pot"
      [("export", .dict [("environment", .str "env"), ("exported_model", .str "m")])]
      ["export"] = .ok () ∧
    potCallPrelude
      [("export", .dict [("environment", .str "env"), ("exported_model", .str "m")])] =
      .error (.keyError "training") ∧
    (∀ prev : List (String × Struct), prev.lookup "export" = none →
      checkPrevStages "pot" prev ["export"] =
        .error (.missingDependency "pot" "export")) := by
  refine ⟨rfl, rfl, ?_⟩
  intro prev h
  unfold checkPrevStages
  rw [if_pos (Or.inr (by rw [h]; rfl))]

/-- C1: the action of every stage runs at most once per stage instance.
Across any sequence of `run_once` calls from a fresh test case, each stage's
action-invocation count stays at most 1; a stage already processed
successfully replays without touching the state (so the cached
`stage_results` object is returned unchanged and the action is not invoked
again); a stage already processed with a stored exception re-raises exactly
that stored exception, again without state change or action invocation. -/
theorem C1_at_most_once {n : Nat} (g : StageGraph n) :
    (∀ (calls : List (Fin n × StageValidator)) (i : Fin n),
      (runSequence g calls (initState n)).trace.count (Event.runAction i) ≤ 1) ∧
    (∀ (i : Fin n) (s : TestState n) (r : Struct),
      s.processed i = true → s.storedExc i = none → s.stageResults i = some r →
      (∀ k : Fin n, k.val < i.val → s.processed k = true ∧ s.storedExc k = none) →
      runOnce g i none s = (.ok (), s)) ∧
    (∀ (i : Fin n) (v : StageValidator) (s : TestState n) (e : Exc),
      s.processed i = true → s.storedExc i = some e →
      (∀ k : Fin n, k.val < i.val → s.processed k = true ∧ s.storedExc k = none) →
      runOnce g i v s = (.error e, s)) := by
  refine ⟨?_, ?_, ?_⟩
  · intro calls i
    have h := traceInv_runSequence g calls (initState n) (traceInv_init n) i
    rw [h]
    split <;> omega
  · intro i s r hp he hsr hbelow
    refine runOnce_noop g (fun k => k.val ≤ i.val) ?_ s ?_ i (le_refl _)
    · intro j hj k hk
      have := g.deps_lt j k hk
      omega
    · intro j hj
      rcases Nat.lt_or_ge j.val i.val with hlt | hge
      · exact hbelow j hlt
      · have hji : j = i := Fin.ext (by omega)
        subst hji
        exact ⟨hp, he⟩
  · intro i v s e hp he hbelow
    exact runOnce_replay_err g i v s s e (runDeps_noop_below g i s hbelow) hp he

/-- A one-stage graph with a trivially succeeding action, for witnesses. -/
def c1Graph : StageGraph 1 :=
  { action := fun _ => ⟨"training", false, fun _ => .ok (.dict [])⟩
    deps := fun _ => []
    deps_lt := fun _ j h => absurd h (List.not_mem_nil j) }

/-- A state of `c1Graph` in which the stage has already succeeded. -/
def c1SuccState : TestState 1 :=
  { processed := fun _ => true
    storedExc := fun _ => none
    stageResults := fun _ => some (.dict [])
    storage := [("training", .dict [])]
    trace := [.runAction 0] }

/-- A state of `c1Graph` in which the stage has already failed. -/
def c1FailState : TestState 1 :=
  { processed := fun _ => true
    storedExc := fun _ => some (.exc 3)
    stageResults := fun _ => none
    storage := []
    trace := [.runAction 0] }

/-- C1 witness: a second `run_once` on a succeeded stage is a no-op and on a
failed stage re-raises the stored exception, in both cases without invoking
the action again. -/
theorem C1_at_most_once_witness :
    runOnce c1Graph 0 none c1SuccState = (.ok (), c1SuccState) ∧
    runOnce c1Graph 0 none c1FailState = (.error (.exc 3), c1FailState) :=
  ⟨(C1_at_most_once c1Graph).2.1 0 c1SuccState (.dict []) rfl rfl rfl
      (fun k hk => by
        have h0 : ((0 : Fin 1) : Nat) = 0 := rfl
        rw [h0] at hk
        exact absurd hk (Nat.not_lt_zero _)),
    (C1_at_most_once c1Graph).2.2 0 none c1FailState (.exc 3) rfl rfl
      (fun k hk => by
        have h0 : ((0 : Fin 1) : Nat) = 0 := rfl
        rw [h0] at hk
        exact absurd hk (Nat.not_lt_zero _))⟩

/-- C7: if a stage's action raises, the shared result store is left
unchanged (no entry under the stage's name), the stage is marked
processed-and-failed with the exception stored, and the exception
propagates; moreover, in every state reachable from a fresh test case, a
stage's name is a key of the store if and only if that stage has been
processed successfully. -/
theorem C7_failure_keeps_store {n : Nat} (g : StageGraph n)
    (hinj : ∀ a b : Fin n, (g.action a).name = (g.action b).name → a = b) :
    (∀ (i : Fin n) (v : StageValidator) (s : TestState n) (e : Exc),
      (∀ k : Fin n, k.val < i.val → s.processed k = true ∧ s.storedExc k = none) →
      s.processed i = false →
      s.storage.lookup (g.action i).name = none →
      (g.action i).run s.storage = .error e →
      runOnce g i v s = (.error e, recordFailure s i e) ∧
      (recordFailure s i e).storage = s.storage ∧
      (recordFailure s i e).processed i = true ∧
      (recordFailure s i e).storedExc i = some e ∧
      (recordFailure s i e).stageResults i = s.stageResults i) ∧
    (∀ (calls : List (Fin n × StageValidator)) (i : Fin n),
      (runSequence g calls (initState n)).storage.lookup (g.action i).name ≠ none ↔
        ((runSequence g calls (initState n)).processed i = true ∧
          (runSequence g calls (initState n)).storedExc i = none)) := by
  constructor
  · intro i v s e hbelow hp hlook hrun
    refine ⟨?_, rfl, by simp [recordFailure], by simp [recordFailure],
      by simp [recordFailure]⟩
    exact runOnce_run_err g i v s s e (runDeps_noop_below g i s hbelow) hp hlook hrun
  · intro calls i
    have hInv := storeInv_runSequence g hinj calls (initState n) (storeInv_init n g)
    rcases hInv i with ⟨p1, p2, p3⟩
    constructor
    · intro hne
      by_cases hp : (runSequence g calls (initState n)).processed i = true
      · cases he : (runSequence g calls (initState n)).storedExc i with
        | none => exact ⟨hp, rfl⟩
        | some e => exact absurd (p3 e he).2 hne
      · have hp' : (runSequence g calls (initState n)).processed i = false := by
          simpa using hp
        exact absurd (p1 hp').2.2 hne
    · rintro ⟨hp, he⟩
      obtain ⟨r, _, hl⟩ := p2 hp he
      rw [hl]
      simp

/-- A one-stage graph whose action always raises. -/
def c7Graph : StageGraph 1 :=
  { action := fun _ => ⟨"training", false, fun _ => .error (.exc 5)⟩
    deps := fun _ => []
    deps_lt := fun _ j h => absurd h (List.not_mem_nil j) }

/-- C7 witness: the failure path evaluated from a fresh state, plus the
store-membership equivalence after one failing call. -/
theorem C7_failure_keeps_store_witness :
    (runOnce c7Graph 0 none (initState 1) = (.error (.exc 5),
        recordFailure (initState 1) 0 (.exc 5)) ∧
      (recordFailure (initState 1) 0 (.exc 5)).storage = (initState 1).storage ∧
      (recordFailure (initState 1) 0 (.exc 5)).processed 0 = true ∧
      (recordFailure (initState 1) 0 (.exc 5)).storedExc 0 = some (.exc 5) ∧
      (recordFailure (initState 1) 0 (.exc 5)).stageResults 0 =
        (initState 1).stageResults 0) ∧
    ((runSequence c7Graph [(0, none)] (initState 1)).storage.lookup "training" ≠ none ↔
      ((runSequence c7Graph [(0, none)] (initState 1)).processed 0 = true ∧
        (runSequence c7Graph [(0, none)] (initState 1)).storedExc 0 = none)) :=
  ⟨(C7_failure_keeps_store c7Graph (fun a b _ => Subsingleton.elim a b)).1
      0 none (initState 1) (.exc 5)
      (fun k hk => by
        have h0 : ((0 : Fin 1) : Nat) = 0 := rfl
        rw [h0] at hk
        exact absurd hk (Nat.not_lt_zero _))
      rfl rfl rfl,
    (C7_failure_keeps_store c7Graph (fun a b _ => Subsingleton.elim a b)).2
      [(0, none)] 0⟩

/-- C10: if the action succeeds but the subsequent validation raises, the
stage still ends processed-and-succeeded (stored exception `None`, result
cached and stored in the shared store), the validation exception propagates,
and any later `run_once` on that stage replays the cached result — with
`validator = None` it returns cleanly, and with a supplied validator it
re-runs validation on the cached result rather than replaying the earlier
validation failure as a stored stage exception. -/
theorem C10_validation_failure_keeps_success {n : Nat} (g : StageGraph n)
    (i : Fin n) (s : TestState n) (r : Struct) (e : Exc)
    (f : Option Struct → List (String × Struct) → Except Exc Unit)
    (hbelow : ∀ k : Fin n, k.val < i.val → s.processed k = true ∧ s.storedExc k = none)
    (hp : s.processed i = false) (hse : s.storedExc i = none)
    (hlook : s.storage.lookup (g.action i).name = none)
    (hrun : (g.action i).run s.storage = .ok r)
    (hwv : (g.action i).with_validation = true)
    (hvfail : f (some r) (s.storage ++ [((g.action i).name, r)]) = .error e) :
    runOnce g i (some f) s =
      (.error e, { recordSuccess g s i r with
        trace := (recordSuccess g s i r).trace ++ [.runValidator i] }) ∧
    (recordSuccess g s i r).processed i = true ∧
    (recordSuccess g s i r).storedExc i = none ∧
    (recordSuccess g s i r).stageResults i = some r ∧
    (recordSuccess g s i r).storage = s.storage ++ [((g.action i).name, r)] ∧
    (recordSuccess g s i r).trace ++ [Event.runValidator i] =
      s.trace ++ [Event.runAction i, Event.runValidator i] ∧
    (∀ s' : TestState n,
      s'.processed i = true → s'.storedExc i = none →
      (∀ k : Fin n, k.val < i.val → s'.processed k = true ∧ s'.storedExc k = none) →
      runOnce g i none s' = (.ok (), s') ∧
      (∀ f' : Option Struct → List (String × Struct) → Except Exc Unit,
        runOnce g i (some f') s' =
          (f' (s'.stageResults i) s'.storage,
            { s' with trace := s'.trace ++ [.runValidator i] }))) := by
  refine ⟨?_, by simp [recordSuccess], ?_, by simp [recordSuccess], rfl,
    by simp [recordSuccess], ?_⟩
  · rw [runOnce_run_ok g i (some f) s s r (runDeps_noop_below g i s hbelow) hp hlook hrun,
      runValidation_some g i (recordSuccess g s i r) f hwv]
    have hres : (recordSuccess g s i r).stageResults i = some r := by
      simp [recordSuccess]
    rw [hres]
    have hstor : (recordSuccess g s i r).storage = s.storage ++ [((g.action i).name, r)] :=
      rfl
    rw [← hstor] at hvfail
    rw [hvfail]
  · show (recordSuccess g s i r).storedExc i = none
    exact hse
  · intro s' hp' hse' hbelow'
    have hdeps := runDeps_noop_below g i s' hbelow'
    constructor
    · refine (runOnce_noop g (fun k => k.val ≤ i.val) ?_ s' ?_ i (le_refl _))
      · intro j hj k hk
        have := g.deps_lt j k hk
        omega
      · intro j hj
        rcases Nat.lt_or_ge j.val i.val with hlt | hge
        · exact hbelow' j hlt
        · have hji : j = i := Fin.ext (by omega)
          subst hji
          exact ⟨hp', hse'⟩
    · intro f'
      rw [runOnce_replay_ok g i (some f') s' s' hdeps hp' hse',
        runValidation_some g i s' f' hwv]

/-- A one-stage graph with a succeeding action that carries validation. -/
def c10Graph : StageGraph 1 :=
  { action := fun _ => ⟨"training_evaluation", true, fun _ => .ok (.dict [])⟩
    deps := fun _ => []
    deps_lt := fun _ j h => absurd h (List.not_mem_nil j) }

/-- A validator stub that always raises. -/
def c10FailingValidator (_res : Option Struct) (_st : List (String × Struct)) :
    Except Exc Unit := .error (.exc 9)

/-- C10 witness: the first call propagates the validation failure but leaves
the stage succeeded; the replay with no validator returns the cached state
unchanged. -/
theorem C10_validation_failure_keeps_success_witness :
    runOnce c10Graph 0 (some c10FailingValidator) (initState 1) =
      (.error (.exc 9), { recordSuccess c10Graph (initState 1) 0 (.dict []) with
        trace := (recordSuccess c10Graph (initState 1) 0 (.dict [])).trace ++
          [.runValidator 0] }) ∧
    (recordSuccess c10Graph (initState 1) 0 (.dict [])).processed 0 = true ∧
    (recordSuccess c10Graph (initState 1) 0 (.dict [])).storedExc 0 = none :=
  have h := C10_validation_failure_keeps_success c10Graph 0 (initState 1)
    (.dict []) (.exc 9) c10FailingValidator
    (fun k hk => by
      have h0 : ((0 : Fin 1) : Nat) = 0 := rfl
      rw [h0] at hk
      exact absurd hk (Nat.not_lt_zero _))
    rfl rfl rfl rfl rfl rfl
  ⟨h.1, h.2.1, h.2.2.1⟩

/-- C2: requesting `pot_evaluation` on a fresh test case runs its transitive
dependency chain first — `training`, `export`, `pot`, `training_evaluation`
(indices 0, 2, 4, 1 of `oteStageNames`), each exactly once, before
`pot_evaluation`'s own action (index 5) — and every dependency stage is run
with `validator = None`, so a validator call is recorded only for the
explicitly requested stage (and only when a validator was supplied).  The
theorem holds for arbitrary succeeding action behaviours. -/
theorem C2_dependency_order (runs : Fin 10 → List (String × Struct) → Except Exc Struct)
    (hruns : ∀ (i : Fin 10) (st : List (String × Struct)), ∃ r, runs i st = .ok r)
    (v : StageValidator) :
    ((runOnce (oteGraph runs) 5 v (initState 10)).2).trace =
      ([.runAction 0, .runAction 2, .runAction 4, .runAction 1, .runAction 5] ++
        (match v with
          | none => []
          | some _ => [.runValidator 5]) : List (Event 10)) := by
  obtain ⟨r0, hr0⟩ := hruns 0 (initState 10).storage
  have hA : runOnce (oteGraph runs) 0 none (initState 10) =
      (.ok (), recordSuccess (oteGraph runs) (initState 10) 0 r0) := by
    rw [runOnce_run_ok (oteGraph runs) 0 none (initState 10) (initState 10) r0
      (runDeps_nil (oteGraph runs) 0 ((oteGraph runs).deps_lt 0) (initState 10))
      rfl rfl hr0]
    exact runValidation_none (oteGraph runs) 0 _
  obtain ⟨r2, hr2⟩ :=
    hruns 2 (recordSuccess (oteGraph runs) (initState 10) 0 r0).storage
  have hB : runOnce (oteGraph runs) 2 none (initState 10) =
      (.ok (), recordSuccess (oteGraph runs)
        (recordSuccess (oteGraph runs) (initState 10) 0 r0) 2 r2) := by
    have hd : runDeps (oteGraph runs) 2 [0] ((oteGraph runs).deps_lt 2) (initState 10) =
        (.ok (), recordSuccess (oteGraph runs) (initState 10) 0 r0) :=
      (runDeps_cons_ok (oteGraph runs) 2 0 [] ((oteGraph runs).deps_lt 2)
        (fun k hk => absurd hk (List.not_mem_nil k)) (initState 10)
        (recordSuccess (oteGraph runs) (initState 10) 0 r0) hA).trans
        (runDeps_nil (oteGraph runs) 2 _ _)
    rw [runOnce_run_ok (oteGraph runs) 2 none (initState 10)
      (recordSuccess (oteGraph runs) (initState 10) 0 r0) r2 hd rfl rfl hr2]
    exact runValidation_none (oteGraph runs) 2 _
  obtain ⟨r4, hr4⟩ := hruns 4 (recordSuccess (oteGraph runs)
    (recordSuccess (oteGraph runs) (initState 10) 0 r0) 2 r2).storage
  have hC : runOnce (oteGraph runs) 4 none (initState 10) =
      (.ok (), recordSuccess (oteGraph runs)
        (recordSuccess (oteGraph runs)
          (recordSuccess (oteGraph runs) (initState 10) 0 r0) 2 r2) 4 r4) := by
    have hd : runDeps (oteGraph runs) 4 [2] ((oteGraph runs).deps_lt 4) (initState 10) =
        (.ok (), recordSuccess (oteGraph runs)
          (recordSuccess (oteGraph runs) (initState 10) 0 r0) 2 r2) :=
      (runDeps_cons_ok (oteGraph runs) 4 2 [] ((oteGraph runs).deps_lt 4)
        (fun k hk => absurd hk (List.not_mem_nil k)) (initState 10) _ hB).trans
        (runDeps_nil (oteGraph runs) 4 _ _)
    rw [runOnce_run_ok (oteGraph runs) 4 none (initState 10) _ r4 hd rfl rfl hr4]
    exact runValidation_none (oteGraph runs) 4 _
  obtain ⟨r1, hr1⟩ := hruns 1 (recordSuccess (oteGraph runs)
    (recordSuccess (oteGraph runs)
      (recordSuccess (oteGraph runs) (initState 10) 0 r0) 2 r2) 4 r4).storage
  have hnoop0 : runOnce (oteGraph runs) 0 none (recordSuccess (oteGraph runs)
      (recordSuccess (oteGraph runs)
        (recordSuccess (oteGraph runs) (initState 10) 0 r0) 2 r2) 4 r4) =
      (.ok (), recordSuccess (oteGraph runs)
        (recordSuccess (oteGraph runs)
          (recordSuccess (oteGraph runs) (initState 10) 0 r0) 2 r2) 4 r4) := by
    refine runOnce_noop (oteGraph runs) (fun k => k = 0) ?_ _ ?_ 0 rfl
    · intro j hj k hk
      subst hj
      exact absurd hk (List.not_mem_nil k)
    · intro j hj
      subst hj
      exact ⟨rfl, rfl⟩
  have hD : runOnce (oteGraph runs) 1 none (recordSuccess (oteGraph runs)
      (recordSuccess (oteGraph runs)
        (recordSuccess (oteGraph runs) (initState 10) 0 r0) 2 r2) 4 r4) =
      (.ok (), recordSuccess (oteGraph runs) (recordSuccess (oteGraph runs)
        (recordSuccess (oteGraph runs)
          (recordSuccess (oteGraph runs) (initState 10) 0 r0) 2 r2) 4 r4) 1 r1) := by
    have hd : runDeps (oteGraph runs) 1 [0] ((oteGraph runs).deps_lt 1)
        (recordSuccess (oteGraph runs)
          (recordSuccess (oteGraph runs)
            (recordSuccess (oteGraph runs) (initState 10) 0 r0) 2 r2) 4 r4) =
        (.ok (), recordSuccess (oteGraph runs)
          (recordSuccess (oteGraph runs)
            (recordSuccess (oteGraph runs) (initState 10) 0 r0) 2 r2) 4 r4) :=
      (runDeps_cons_ok (oteGraph runs) 1 0 [] ((oteGraph runs).deps_lt 1)
        (fun k hk => absurd hk (List.not_mem_nil k)) _ _ hnoop0).trans
        (runDeps_nil (oteGraph runs) 1 _ _)
    rw [runOnce_run_ok (oteGraph runs) 1 none _ _ r1 hd rfl rfl hr1]
    exact runValidation_none (oteGraph runs) 1 _
  obtain ⟨r5, hr5⟩ := hruns 5 (recordSuccess (oteGraph runs) (recordSuccess (oteGraph runs)
    (recordSuccess (oteGraph runs)
      (recordSuccess (oteGraph runs) (initState 10) 0 r0) 2 r2) 4 r4) 1 r1).storage
  have hd5 : runDeps (oteGraph runs) 5 [4, 1] ((oteGraph runs).deps_lt 5) (initState 10) =
      (.ok (), recordSuccess (oteGraph runs) (recordSuccess (oteGraph runs)
        (recordSuccess (oteGraph runs)
          (recordSuccess (oteGraph runs) (initState 10) 0 r0) 2 r2) 4 r4) 1 r1) := by
    refine (runDeps_cons_ok (oteGraph runs) 5 4 [1] ((oteGraph runs).deps_lt 5)
      (by decide) (initState 10) _ hC).trans ?_
    refine (runDeps_cons_ok (oteGraph runs) 5 1 [] (by decide)
      (fun k hk => absurd hk (List.not_mem_nil k)) _ _ hD).trans ?_
    exact runDeps_nil (oteGraph runs) 5 _ _
  have hE : runOnce (oteGraph runs) 5 v (initState 10) =
      runValidation (oteGraph runs) 5 v (recordSuccess (oteGraph runs)
        (recordSuccess (oteGraph runs) (recordSuccess (oteGraph runs)
          (recordSuccess (oteGraph runs)
            (recordSuccess (oteGraph runs) (initState 10) 0 r0) 2 r2) 4 r4) 1 r1) 5 r5) :=
    runOnce_run_ok (oteGraph runs) 5 v (initState 10) _ r5 hd5 rfl rfl hr5
  rw [hE]
  match v with
  | none =>
    rw [runValidation_none]
    simp [recordSuccess, initState]
  | some f =>
    rw [runValidation_some (oteGraph runs) 5 _ f rfl]
    simp [recordSuccess, initState]

/-- C2 witness: the theorem applied to stub actions that always succeed with
an empty result bundle, and no validator. -/
theorem C2_dependency_order_witness :
    ((runOnce (oteGraph (fun _ _ => .ok (.dict []))) 5 none (initState 10)).2).trace =
      ([.runAction 0, .runAction 2, .runAction 4, .runAction 1, .runAction 5] :
        List (Event 10)) := by
  have h := C2_dependency_order (fun _ _ => .ok (.dict []))
    (fun _ _ => ⟨.dict [], rfl⟩) none
  simpa using h
